import Mathlib

/-!
Shallow embedding of the customer-service registry of
`internal/domain/customer_service` (model.go, service.go).

Go maps `map[string]*T` are modelled as association lists
`List (String × T)`; map values that are pointers into another table
(`CSStaff.Sessions`, `CSGroup.Members`) are modelled as the list of their
keys, since the authoritative records live in the registry's own tables
and every mutation in service.go goes through those tables.

`time.Now()` is modelled by a `clock : Nat` field on the registry
(nanosecond ticks): each call returns the current clock and advances it
by one, capturing that successive readings of Go's monotonic clock are
strictly increasing while keeping sub-second resolution, because
`Format("20060102150405")` truncates the reading to whole seconds.  The
formatted timestamp is modelled as the decimal string of
`tick / nsPerSec`, which is equal on two ticks exactly when the two
readings fall in the same second, as with the Go layout string.
-/

inductive UserStatus where
  | offline
  | online
  | inSession
deriving DecidableEq, Repr

inductive SessionStatus where
  | waiting
  | active
  | closed
deriving DecidableEq, Repr

inductive MessageType where
  | text
  | image
  | system
deriving DecidableEq, Repr

inductive CSError where
  | userNotFound
  | staffNotFound
  | sessionNotFound
  | groupNotFound
  | invalidOperation
deriving DecidableEq, Repr

structure Message where
  id : String
  sessionID : String
  fromID : String
  toID : String
  content : String
  type : MessageType
  createAt : Nat
deriving DecidableEq, Repr

structure User where
  id : String
  name : String
  status : UserStatus
  createAt : Nat
  sessionID : String
deriving DecidableEq, Repr

structure CSGroup where
  id : String
  name : String
  members : List String
deriving DecidableEq, Repr

structure CSStaff where
  id : String
  name : String
  groupID : String
  status : UserStatus
  sessions : List String
deriving DecidableEq, Repr

structure Session where
  id : String
  userID : String
  staffID : String
  status : SessionStatus
  createAt : Nat
  updateAt : Nat
  messages : List Message
deriving DecidableEq, Repr

deriving instance DecidableEq for Except

/-- Lookup in an association list modelling a Go `map[string]*T`. -/
def lookupKey {α : Type} (m : List (String × α)) (k : String) : Option α :=
  match m with
  | [] => none
  | p :: rest => if p.1 = k then some p.2 else lookupKey rest k

/-- Deletion `delete(m, k)` in a Go map. -/
def eraseKey {α : Type} : List (String × α) → String → List (String × α)
  | [], _ => []
  | p :: rest, k => if p.1 = k then eraseKey rest k else p :: eraseKey rest k

/-- Insertion `m[k] = v` in a Go map: overwrites any previous binding. -/
def insertKey {α : Type} (m : List (String × α)) (k : String) (v : α) :
    List (String × α) :=
  (k, v) :: eraseKey m k

/-- Key-set insertion, for maps used as sets of ids (`Sessions`, `Members`). -/
def addKey (l : List String) (k : String) : List String :=
  if k ∈ l then l else k :: l

/-- Key-set removal. -/
def removeKey (l : List String) (k : String) : List String :=
  l.filter (fun x => x ≠ k)

/-- The `CustomerService` registry state: the four tables plus the clock. -/
structure CustomerService where
  users : List (String × User)
  staffs : List (String × CSStaff)
  groups : List (String × CSGroup)
  sessions : List (String × Session)
  clock : Nat
deriving DecidableEq, Repr

/-- `NewCustomerService()`, with the clock started at an arbitrary origin. -/
def initialService : CustomerService :=
  { users := [], staffs := [], groups := [], sessions := [], clock := 0 }

/-- One call of `time.Now()`: returns the reading and advances the clock. -/
def timeNow (cs : CustomerService) : Nat × CustomerService :=
  (cs.clock, { cs with clock := cs.clock + 1 })

/-- Nanoseconds per second: the resolution lost by `Format("20060102150405")`. -/
def nsPerSec : Nat := 1000000000

/-- `time.Now().Format("20060102150405")`: the reading truncated to seconds. -/
def goFormat (t : Nat) : String :=
  toString (t / nsPerSec)

/-- The session id built in `CreateSession`:
`userID + "_" + staffID + "_" + time.Now().Format("20060102150405")`. -/
def mkSessionId (userID staffID : String) (t : Nat) : String :=
  userID ++ "_" ++ staffID ++ "_" ++ goFormat t

/-- `ConnectUser`: creates or replaces the user entry in Online status. -/
def connectUser (cs : CustomerService) (userID name : String) :
    CustomerService × User :=
  let (t, cs) := timeNow cs
  let user : User :=
    { id := userID, name := name, status := UserStatus.online,
      createAt := t, sessionID := "" }
  ({ cs with users := insertKey cs.users userID user }, user)

/-- `ConnectStaff`: requires the group to exist; inserts the staff into the
staff table and into the group's membership set with an empty session set. -/
def connectStaff (cs : CustomerService) (staffID name groupID : String) :
    CustomerService × Except CSError CSStaff :=
  match lookupKey cs.groups groupID with
  | none => (cs, Except.error CSError.groupNotFound)
  | some group =>
    let staff : CSStaff :=
      { id := staffID, name := name, groupID := groupID,
        status := UserStatus.online, sessions := [] }
    ({ cs with
        staffs := insertKey cs.staffs staffID staff,
        groups := insertKey cs.groups groupID
          { group with members := addKey group.members staffID } },
     Except.ok staff)

/-- `CreateGroup`: registers the group with an empty membership set. -/
def createGroup (cs : CustomerService) (groupID name : String) :
    CustomerService × CSGroup :=
  let group : CSGroup := { id := groupID, name := name, members := [] }
  ({ cs with groups := insertKey cs.groups groupID group }, group)

/-- `CreateSession`: both parties must be connected; allocates the session
in Active status, registers it in the session table and the staff's
session set, and points the user at it (status InSession). -/
def createSession (cs : CustomerService) (userID staffID : String) :
    CustomerService × Except CSError Session :=
  match lookupKey cs.users userID with
  | none => (cs, Except.error CSError.userNotFound)
  | some user =>
    match lookupKey cs.staffs staffID with
    | none => (cs, Except.error CSError.staffNotFound)
    | some staff =>
      let (t1, cs) := timeNow cs
      let (t2, cs) := timeNow cs
      let (t3, cs) := timeNow cs
      let session : Session :=
        { id := mkSessionId userID staffID t1, userID := userID,
          staffID := staffID, status := SessionStatus.active,
          createAt := t2, updateAt := t3, messages := [] }
      ({ cs with
          sessions := insertKey cs.sessions session.id session,
          staffs := insertKey cs.staffs staffID
            { staff with sessions := addKey staff.sessions session.id },
          users := insertKey cs.users userID
            { user with sessionID := session.id,
                        status := UserStatus.inSession } },
       Except.ok session)

/-- Update the record a staff-table entry points to, as a Go write through
the `*CSStaff` pointer does: a no-op when the key is absent. -/
def updateStaffSessions (staffs : List (String × CSStaff)) (k : String)
    (f : List String → List String) : List (String × CSStaff) :=
  match lookupKey staffs k with
  | none => staffs
  | some st => insertKey staffs k { st with sessions := f st.sessions }

/-- `TransferSession`: the session, the destination staff and the session's
current (outgoing) staff must all exist; removes the session id from the
outgoing staff's set, rewrites `StaffID`, stamps `UpdateAt`, and inserts
the id into the destination staff's set.  The second set update is applied
to the current table entry, matching the Go pointer aliasing when the
destination staff equals the outgoing staff. -/
def transferSession (cs : CustomerService) (sessionID newStaffID : String) :
    CustomerService × Except CSError Unit :=
  match lookupKey cs.sessions sessionID with
  | none => (cs, Except.error CSError.sessionNotFound)
  | some session =>
    match lookupKey cs.staffs newStaffID with
    | none => (cs, Except.error CSError.staffNotFound)
    | some _ =>
      match lookupKey cs.staffs session.staffID with
      | none => (cs, Except.error CSError.staffNotFound)
      | some oldStaff =>
        let oldStaff1 : CSStaff :=
          { oldStaff with sessions := removeKey oldStaff.sessions sessionID }
        let cs1 : CustomerService :=
          { cs with staffs := insertKey cs.staffs session.staffID oldStaff1 }
        let (t, cs2) := timeNow cs1
        let session1 : Session :=
          { session with staffID := newStaffID, updateAt := t }
        let cs3 : CustomerService :=
          { cs2 with sessions := insertKey cs2.sessions sessionID session1 }
        let staffs4 :=
          updateStaffSessions cs3.staffs newStaffID (fun l => addKey l sessionID)
        ({ cs3 with staffs := staffs4 }, Except.ok ())

/-- `SendMessage`: the session must exist and the sender must be one of its
two parties; the recipient is the other party; the message is appended and
`UpdateAt` stamped.  The message record (two `time.Now()` calls) is built
before the sender check, as in the source. -/
def sendMessage (cs : CustomerService) (sessionID fromID content : String)
    (msgType : MessageType) : CustomerService × Except CSError Message :=
  match lookupKey cs.sessions sessionID with
  | none => (cs, Except.error CSError.sessionNotFound)
  | some session =>
    let (t1, cs) := timeNow cs
    let (t2, cs) := timeNow cs
    let msg : Message :=
      { id := sessionID ++ "_" ++ goFormat t1, sessionID := sessionID,
        fromID := fromID, toID := "", content := content,
        type := msgType, createAt := t2 }
    match (if fromID = session.userID then some session.staffID
           else if fromID = session.staffID then some session.userID
           else none) with
    | none => (cs, Except.error CSError.invalidOperation)
    | some recipient =>
      let msg := { msg with toID := recipient }
      let (t3, cs) := timeNow cs
      let session1 : Session :=
        { session with messages := session.messages ++ [msg],
                       updateAt := t3 }
      ({ cs with sessions := insertKey cs.sessions sessionID session1 },
       Except.ok msg)

/-- `DisconnectUser`: no-op for an unknown id; otherwise removes the user
from the user table (the Offline mark and `Conn.Close` act on the removed
record and its socket only). -/
def disconnectUser (cs : CustomerService) (userID : String) :
    CustomerService :=
  match lookupKey cs.users userID with
  | none => cs
  | some _ => { cs with users := eraseKey cs.users userID }

/-- One iteration of the closing loop of `DisconnectStaff`: if the session
id is present in the session table, set it to Closed and stamp `UpdateAt`
with a fresh `time.Now()`. -/
def closeOne (cs : CustomerService) (sid : String) : CustomerService :=
  match lookupKey cs.sessions sid with
  | none => cs
  | some s =>
    let (t, cs2) := timeNow cs
    let s1 : Session := { s with status := SessionStatus.closed, updateAt := t }
    { cs2 with sessions := insertKey cs2.sessions sid s1 }

/-- The closing loop of `DisconnectStaff` over the staff's session set. -/
def closeSessions (cs : CustomerService) (sids : List String) :
    CustomerService :=
  match sids with
  | [] => cs
  | sid :: rest => closeSessions (closeOne cs sid) rest

/-- `DisconnectStaff`: no-op for an unknown id; otherwise marks the staff
Offline (observable on the returned record, as on the Go heap object),
removes it from its group's membership set, closes every session of its
set that exists in the session table, and removes it from the staff
table. -/
def disconnectStaff (cs : CustomerService) (staffID : String) :
    CustomerService × Option CSStaff :=
  match lookupKey cs.staffs staffID with
  | none => (cs, none)
  | some staff =>
    let staff := { staff with status := UserStatus.offline }
    let cs1 :=
      match lookupKey cs.groups staff.groupID with
      | none => cs
      | some g =>
        let g1 : CSGroup := { g with members := removeKey g.members staffID }
        { cs with groups := insertKey cs.groups staff.groupID g1 }
    let cs2 := closeSessions cs1 staff.sessions
    ({ cs2 with staffs := eraseKey cs2.staffs staffID }, some staff)

/-- One Registry operation, for reasoning about operation sequences. -/
inductive Op where
  | connectUser (id name : String)
  | connectStaff (id name groupID : String)
  | createGroup (id name : String)
  | createSession (userID staffID : String)
  | transferSession (sessionID newStaffID : String)
  | sendMessage (sessionID fromID content : String) (ty : MessageType)
  | disconnectUser (id : String)
  | disconnectStaff (id : String)
deriving DecidableEq, Repr

/-- State transition of one operation (discarding the returned value). -/
def step (cs : CustomerService) : Op → CustomerService
  | Op.connectUser id n => (connectUser cs id n).1
  | Op.connectStaff id n g => (connectStaff cs id n g).1
  | Op.createGroup id n => (createGroup cs id n).1
  | Op.createSession u st => (createSession cs u st).1
  | Op.transferSession sid n => (transferSession cs sid n).1
  | Op.sendMessage sid f c ty => (sendMessage cs sid f c ty).1
  | Op.disconnectUser id => disconnectUser cs id
  | Op.disconnectStaff id => (disconnectStaff cs id).1

/-- Run a sequence of operations. -/
def run (cs : CustomerService) (ops : List Op) : CustomerService :=
  ops.foldl step cs

/-- A step is safe when it cannot silently overwrite a live table entry:
`ConnectStaff` does not reuse a currently connected staff id, and the id
`CreateSession` is about to generate is not already in the session table
(no same-second id collision). -/
def safeStep (cs : CustomerService) : Op → Bool
  | Op.connectStaff id _ _ => (lookupKey cs.staffs id).isNone
  | Op.createSession u st =>
      (lookupKey cs.sessions (mkSessionId u st cs.clock)).isNone
  | _ => true

/-- Every step of the sequence is safe in the state it executes in. -/
def safeTrace (cs : CustomerService) : List Op → Bool
  | [] => true
  | op :: ops => safeStep cs op && safeTrace (step cs op) ops

/-! ### Concrete states and traces used to exercise the theorems -/

/-- A sample session between user `u1` and staff `s1`. -/
def demoSession : Session :=
  { id := "sid1", userID := "u1", staffID := "s1",
    status := SessionStatus.active, createAt := 0, updateAt := 1,
    messages := [] }

/-- A registry state holding just `demoSession`. -/
def demoState : CustomerService :=
  { users := [], staffs := [], groups := [], sessions := [("sid1", demoSession)],
    clock := 10 }

/-- A minimal happy-path trace: one group, one staff, one user, one
session. -/
def baseOps : List Op :=
  [Op.createGroup "g" "G", Op.connectStaff "s1" "A" "g",
   Op.connectUser "u1" "B", Op.createSession "u1" "s1"]

/-- The state reached by `baseOps` from the fresh service. -/
def baseState : CustomerService := run initialService baseOps

/-- The staff record held by `baseState` under key `"s1"`. -/
def baseStaff : CSStaff :=
  { id := "s1", name := "A", groupID := "g", status := UserStatus.online,
    sessions := ["u1_s1_0"] }

/-- The session record held by `baseState` under key `"u1_s1_0"`. -/
def baseSession : Session :=
  { id := "u1_s1_0", userID := "u1", staffID := "s1",
    status := SessionStatus.active, createAt := 2, updateAt := 3,
    messages := [] }

/-- A trace for refuting C2: a session is closed by its staff's
disconnect, the staff id `"s1"` then reconnects, after which the closed
session can still be transferred to `"s2"`. -/
def reconnectOps : List Op :=
  [Op.createGroup "g" "G", Op.connectStaff "s1" "A" "g",
   Op.connectStaff "s2" "B" "g", Op.connectUser "u1" "C",
   Op.createSession "u1" "s1", Op.disconnectStaff "s1",
   Op.connectStaff "s1" "A" "g"]

/-- The state reached by `reconnectOps` from the fresh service. -/
def reconnectState : CustomerService := run initialService reconnectOps

/-- A trace for refuting C10: the user's current session is closed by its
staff's disconnect (the user side untouched), then a second staff
connects. -/
def closedPriorOps : List Op :=
  [Op.createGroup "g" "G", Op.connectStaff "s1" "A" "g",
   Op.connectUser "u1" "C", Op.createSession "u1" "s1",
   Op.disconnectStaff "s1", Op.connectStaff "s2" "B" "g"]

/-- The state reached by `closedPriorOps` from the fresh service. -/
def closedPriorState : CustomerService := run initialService closedPriorOps

/-- The connection prefix of `baseOps`, without the session creation. -/
def pairOps : List Op :=
  [Op.createGroup "g" "G", Op.connectStaff "s1" "A" "g",
   Op.connectUser "u1" "B"]

/-- The state reached by `pairOps`: `u1` and `s1` connected, no session. -/
def pairState : CustomerService := run initialService pairOps

/-- A state whose clock sits one tick before a second boundary, so that
two immediately following `CreateSession` calls fall in distinct formatted
seconds. -/
def boundaryState : CustomerService :=
  { users := [("u1", { id := "u1", name := "B", status := UserStatus.online,
                       createAt := 0, sessionID := "" })],
    staffs := [("s1", { id := "s1", name := "A", groupID := "g",
                        status := UserStatus.online, sessions := [] })],
    groups := [("g", { id := "g", name := "G", members := ["s1"] })],
    sessions := [],
    clock := 999999999 }

/-- A table has pairwise distinct keys (as every Go map does). -/
def NodupKeys {α : Type} (m : List (String × α)) : Prop :=
  (m.map Prod.fst).Nodup

/-- The inductive well-formedness bundle maintained by every safe trace:
distinct keys, records agreeing with their keys, staff session sets only
holding ids of existing sessions, invariant 2 of the specification (a
non-Closed session's id sits in exactly the session set of the staff it
names), and all stored `UpdateAt` stamps lying strictly below the clock. -/
structure WF (cs : CustomerService) : Prop where
  nodupStaffs : NodupKeys cs.staffs
  nodupSessions : NodupKeys cs.sessions
  staffIdEq : ∀ k st, lookupKey cs.staffs k = some st → st.id = k
  sessionIdEq : ∀ k s, lookupKey cs.sessions k = some s → s.id = k
  staffSessionsSub : ∀ k st, lookupKey cs.staffs k = some st →
    ∀ sid, sid ∈ st.sessions → (lookupKey cs.sessions sid).isSome
  inv2 : ∀ sid s, lookupKey cs.sessions sid = some s →
    s.status ≠ SessionStatus.closed →
    (lookupKey cs.staffs s.staffID).isSome ∧
    ∀ k st, lookupKey cs.staffs k = some st →
      (sid ∈ st.sessions ↔ k = s.staffID)
  clockBound : ∀ sid s, lookupKey cs.sessions sid = some s →
    s.updateAt < cs.clock

/-- A trace for refuting C1: after the session is created, staff `"s1"`
reconnects, which silently replaces its table entry by one with an empty
session set while the session stays Active. -/
def orphanOps : List Op :=
  [Op.createGroup "g" "G", Op.connectStaff "s1" "A" "g",
   Op.connectUser "u1" "B", Op.createSession "u1" "s1",
   Op.connectStaff "s1" "A" "g"]

/-- The state reached by `orphanOps` from the fresh service. -/
def orphanState : CustomerService := run initialService orphanOps

/-- The staff ids whose session sets contain `sid`. -/
def holders (cs : CustomerService) (sid : String) : List String :=
  (cs.staffs.filter (fun p => p.2.sessions.contains sid)).map Prod.fst

/-- `baseOps` followed by a second staff joining the group. -/
def twoStaffOps : List Op :=
  [Op.createGroup "g" "G", Op.connectStaff "s1" "A" "g",
   Op.connectUser "u1" "B", Op.createSession "u1" "s1",
   Op.connectStaff "s2" "C" "g"]

/-- The state reached by `twoStaffOps` from the fresh service. -/
def twoStaffState : CustomerService := run initialService twoStaffOps

/-! ### Basic lemmas about the map operations -/

theorem lookupKey_insert_self {α : Type} (m : List (String × α)) (k : String)
    (v : α) : lookupKey (insertKey m k v) k = some v := by
  simp [insertKey, lookupKey]

theorem lookupKey_erase_self {α : Type} (m : List (String × α)) (k : String) :
    lookupKey (eraseKey m k) k = none := by
  induction m with
  | nil => rfl
  | cons p rest ih =>
    by_cases hp : p.1 = k
    · simp [eraseKey, hp, ih]
    · simp [eraseKey, lookupKey, hp, ih]

theorem lookupKey_erase_ne {α : Type} (m : List (String × α)) (k k' : String)
    (h : k' ≠ k) : lookupKey (eraseKey m k) k' = lookupKey m k' := by
  have hkk' : ¬ k = k' := fun hc => h hc.symm
  induction m with
  | nil => rfl
  | cons p rest ih =>
    by_cases hp : p.1 = k
    · have hp' : ¬ p.1 = k' := fun hc => h (hc ▸ hp)
      simp [eraseKey, lookupKey, hp, hp', ih, hkk']
    · by_cases hk' : p.1 = k'
      · simp [eraseKey, lookupKey, hp, hk', h]
      · simp [eraseKey, lookupKey, hp, hk', ih]

theorem lookupKey_insert_ne {α : Type} (m : List (String × α)) (k k' : String)
    (v : α) (h : k' ≠ k) :
    lookupKey (insertKey m k v) k' = lookupKey m k' := by
  have h' : ¬ k = k' := fun hc => h hc.symm
  simp only [insertKey, lookupKey, if_neg h']
  exact lookupKey_erase_ne m k k' h

theorem mem_addKey {l : List String} {k x : String} :
    x ∈ addKey l k ↔ x = k ∨ x ∈ l := by
  by_cases h : k ∈ l
  · simp only [addKey, if_pos h]
    constructor
    · exact Or.inr
    · rintro (rfl | hx)
      · exact h
      · exact hx
  · simp [addKey, if_neg h]

theorem mem_addKey_self (l : List String) (k : String) : k ∈ addKey l k :=
  mem_addKey.mpr (Or.inl rfl)

theorem mem_addKey_of_mem {l : List String} {x : String} (k : String)
    (h : x ∈ l) : x ∈ addKey l k :=
  mem_addKey.mpr (Or.inr h)

theorem mem_removeKey {l : List String} {k x : String} :
    x ∈ removeKey l k ↔ x ∈ l ∧ x ≠ k := by
  simp [removeKey]

theorem not_mem_removeKey_self (l : List String) (k : String) :
    k ∉ removeKey l k := by
  intro h
  exact (mem_removeKey.mp h).2 rfl

/-! ### C4: SendMessage rejects senders that are not a party -/

/-- C4: for every existing session `s` and every sender id equal to neither
`s.UserID` nor `s.StaffID`, `SendMessage` fails with `InvalidOperation` and
the session table — hence the session's message sequence and `UpdateAt` —
is left unchanged: nothing is appended on the error path. -/
theorem sendMessage_stranger_invalidOperation (cs : CustomerService)
    (sid fromId content : String) (ty : MessageType) (s : Session)
    (hs : lookupKey cs.sessions sid = some s)
    (hu : fromId ≠ s.userID) (hst : fromId ≠ s.staffID) :
    (sendMessage cs sid fromId content ty).2 =
      Except.error CSError.invalidOperation ∧
    (sendMessage cs sid fromId content ty).1.sessions = cs.sessions ∧
    lookupKey (sendMessage cs sid fromId content ty).1.sessions sid = some s := by
  refine ⟨?_, ?_, ?_⟩ <;> simp [sendMessage, hs, hu, hst, timeNow]

/-- Witness for C4 at a concrete state: sender `"x"` is a stranger to
`demoSession`. -/
theorem sendMessage_stranger_invalidOperation_witness :
    lookupKey demoState.sessions "sid1" = some demoSession ∧
    ("x" : String) ≠ demoSession.userID ∧
    ("x" : String) ≠ demoSession.staffID ∧
    ((sendMessage demoState "sid1" "x" "hi" MessageType.text).2 =
       Except.error CSError.invalidOperation ∧
     (sendMessage demoState "sid1" "x" "hi" MessageType.text).1.sessions =
       demoState.sessions ∧
     lookupKey (sendMessage demoState "sid1" "x" "hi" MessageType.text).1.sessions
       "sid1" = some demoSession) :=
  ⟨by decide, by decide, by decide,
   sendMessage_stranger_invalidOperation demoState "sid1" "x" "hi"
     MessageType.text demoSession (by decide) (by decide) (by decide)⟩

/-! ### C6: TransferSession failure modes mutate nothing -/

/-- C6: when the session exists and the destination staff exists but the
session's current (outgoing) staff is absent from the staff table,
`TransferSession` fails with `StaffNotFound`; and on every failure the
whole registry state — in particular the session's `StaffID`, `UpdateAt`
and every staff's session set — is returned unchanged. -/
theorem transferSession_failure_frame (cs : CustomerService)
    (sid nid : String) :
    (∀ s, lookupKey cs.sessions sid = some s →
       (lookupKey cs.staffs nid).isSome →
       lookupKey cs.staffs s.staffID = none →
       transferSession cs sid nid = (cs, Except.error CSError.staffNotFound)) ∧
    (∀ e, (transferSession cs sid nid).2 = Except.error e →
       (transferSession cs sid nid).1 = cs) := by
  constructor
  · intro s hs hn ho
    obtain ⟨ns, hns⟩ := Option.isSome_iff_exists.mp hn
    simp [transferSession, hs, hns, ho]
  · intro e he
    rcases hls : lookupKey cs.sessions sid with _ | s
    · simp [transferSession, hls]
    · rcases hln : lookupKey cs.staffs nid with _ | ns
      · simp [transferSession, hls, hln]
      · rcases hlo : lookupKey cs.staffs s.staffID with _ | os
        · simp [transferSession, hls, hln, hlo]
        · simp [transferSession, hls, hln, hlo, timeNow] at he

/-- Witness for C6: transferring `demoSession` (whose staff `"s1"` is not
in the empty staff table of `demoState`) to `"s2"` — exercised through the
all-failure frame part, which needs no side condition. -/
theorem transferSession_failure_frame_witness :
    (transferSession demoState "sid1" "s2").2 =
      Except.error CSError.staffNotFound ∧
    (transferSession demoState "sid1" "s2").1 = demoState :=
  ⟨by decide,
   (transferSession_failure_frame demoState "sid1" "s2").2
     CSError.staffNotFound (by decide)⟩

/-! ### C8: Disconnect of an unknown id is a strict no-op -/

/-- C8: for an id absent from the respective table, `DisconnectUser` and
`DisconnectStaff` never fail and leave the entire registry state (users,
staffs, groups, sessions, clock) unchanged. -/
theorem disconnect_unknown_noop (cs : CustomerService) (id : String) :
    (lookupKey cs.users id = none → disconnectUser cs id = cs) ∧
    (lookupKey cs.staffs id = none → disconnectStaff cs id = (cs, none)) := by
  constructor
  · intro h
    simp [disconnectUser, h]
  · intro h
    simp [disconnectStaff, h]

/-- Witness for C8: id `"ghost"` is in neither table of `demoState`. -/
theorem disconnect_unknown_noop_witness :
    lookupKey demoState.users "ghost" = none ∧
    lookupKey demoState.staffs "ghost" = none ∧
    disconnectUser demoState "ghost" = demoState ∧
    disconnectStaff demoState "ghost" = (demoState, none) :=
  ⟨by decide, by decide,
   (disconnect_unknown_noop demoState "ghost").1 (by decide),
   (disconnect_unknown_noop demoState "ghost").2 (by decide)⟩

/-! ### C9: SendMessage error characterization; Closed sessions still accept -/

/-- C9: `SendMessage` fails exactly when the session id is absent
(`SessionNotFound`) or the sender is neither the session's user nor its
staff (`InvalidOperation`).  The success case carries no condition on the
session's status: in particular a Closed session still accepts messages
from either party, the message is appended and `UpdateAt` stamped with the
current clock. -/
theorem sendMessage_error_characterization (cs : CustomerService)
    (sid fromId content : String) (ty : MessageType) :
    (lookupKey cs.sessions sid = none →
       sendMessage cs sid fromId content ty =
         (cs, Except.error CSError.sessionNotFound)) ∧
    (∀ s, lookupKey cs.sessions sid = some s → fromId ≠ s.userID →
       fromId ≠ s.staffID →
       (sendMessage cs sid fromId content ty).2 =
         Except.error CSError.invalidOperation) ∧
    (∀ s, lookupKey cs.sessions sid = some s →
       (fromId = s.userID ∨ fromId = s.staffID) →
       ∃ m, (sendMessage cs sid fromId content ty).2 = Except.ok m ∧
         lookupKey (sendMessage cs sid fromId content ty).1.sessions sid =
           some { s with messages := s.messages ++ [m],
                         updateAt := cs.clock + 2 }) := by
  refine ⟨?_, ?_, ?_⟩
  · intro h
    simp [sendMessage, h]
  · intro s hs h1 h2
    simp [sendMessage, hs, h1, h2, timeNow]
  · intro s hs hor
    by_cases h1 : fromId = s.userID
    · refine ⟨{ id := sid ++ "_" ++ goFormat cs.clock, sessionID := sid,
                fromID := fromId, toID := s.staffID, content := content,
                type := ty, createAt := cs.clock + 1 }, ?_, ?_⟩ <;>
        simp [sendMessage, hs, h1, timeNow, lookupKey_insert_self]
    · have h2 : fromId = s.staffID := hor.resolve_left h1
      subst h2
      refine ⟨{ id := sid ++ "_" ++ goFormat cs.clock, sessionID := sid,
                fromID := s.staffID, toID := s.userID, content := content,
                type := ty, createAt := cs.clock + 1 }, ?_, ?_⟩ <;>
        simp [sendMessage, hs, h1, timeNow, lookupKey_insert_self]

/-- Witness for C9 at a concrete state: the session's own user may send. -/
theorem sendMessage_error_characterization_witness :
    lookupKey demoState.sessions "sid1" = some demoSession ∧
    (("u1" : String) = demoSession.userID ∨
     ("u1" : String) = demoSession.staffID) ∧
    ∃ m, (sendMessage demoState "sid1" "u1" "hello" MessageType.text).2 =
        Except.ok m ∧
      lookupKey (sendMessage demoState "sid1" "u1" "hello"
          MessageType.text).1.sessions "sid1" =
        some { demoSession with messages := demoSession.messages ++ [m],
                                updateAt := demoState.clock + 2 } :=
  ⟨by decide, Or.inl (by decide),
   (sendMessage_error_characterization demoState "sid1" "u1" "hello"
       MessageType.text).2.2 demoSession (by decide) (Or.inl (by decide))⟩

/-! ### Lemmas about the session-closing loop of DisconnectStaff -/

theorem closeOne_users (cs : CustomerService) (sid : String) :
    (closeOne cs sid).users = cs.users := by
  rcases h : lookupKey cs.sessions sid with _ | s <;>
    simp [closeOne, h, timeNow]

theorem closeOne_staffs (cs : CustomerService) (sid : String) :
    (closeOne cs sid).staffs = cs.staffs := by
  rcases h : lookupKey cs.sessions sid with _ | s <;>
    simp [closeOne, h, timeNow]

theorem closeOne_groups (cs : CustomerService) (sid : String) :
    (closeOne cs sid).groups = cs.groups := by
  rcases h : lookupKey cs.sessions sid with _ | s <;>
    simp [closeOne, h, timeNow]

theorem closeOne_clock_le (cs : CustomerService) (sid : String) :
    cs.clock ≤ (closeOne cs sid).clock := by
  rcases h : lookupKey cs.sessions sid with _ | s <;>
    simp [closeOne, h, timeNow]

theorem closeOne_lookup_ne (cs : CustomerService) (sid sid' : String)
    (h : sid' ≠ sid) :
    lookupKey (closeOne cs sid).sessions sid' = lookupKey cs.sessions sid' := by
  rcases hl : lookupKey cs.sessions sid with _ | s
  · simp [closeOne, hl]
  · simp only [closeOne, hl, timeNow]
    exact lookupKey_insert_ne _ _ _ _ h

theorem closeOne_lookup_self (cs : CustomerService) (sid : String)
    (s : Session) (hs : lookupKey cs.sessions sid = some s) :
    lookupKey (closeOne cs sid).sessions sid =
      some { s with status := SessionStatus.closed, updateAt := cs.clock } := by
  simp only [closeOne, hs, timeNow]
  exact lookupKey_insert_self _ _ _

theorem closeSessions_users (cs : CustomerService) (l : List String) :
    (closeSessions cs l).users = cs.users := by
  induction l generalizing cs with
  | nil => rfl
  | cons sid rest ih =>
    rw [closeSessions, ih, closeOne_users]

theorem closeSessions_staffs (cs : CustomerService) (l : List String) :
    (closeSessions cs l).staffs = cs.staffs := by
  induction l generalizing cs with
  | nil => rfl
  | cons sid rest ih =>
    rw [closeSessions, ih, closeOne_staffs]

theorem closeSessions_groups (cs : CustomerService) (l : List String) :
    (closeSessions cs l).groups = cs.groups := by
  induction l generalizing cs with
  | nil => rfl
  | cons sid rest ih =>
    rw [closeSessions, ih, closeOne_groups]

theorem closeSessions_clock_le (cs : CustomerService) (l : List String) :
    cs.clock ≤ (closeSessions cs l).clock := by
  induction l generalizing cs with
  | nil => exact Nat.le_refl _
  | cons sid rest ih =>
    rw [closeSessions]
    exact Nat.le_trans (closeOne_clock_le cs sid) (ih (closeOne cs sid))

/-- Every session entry is either untouched by the closing loop or turned
into its Closed, restamped version (identity, parties and messages kept). -/
theorem closeSessions_lookup_or (cs : CustomerService) (l : List String)
    (sid : String) :
    lookupKey (closeSessions cs l).sessions sid = lookupKey cs.sessions sid ∨
    ∃ s t, lookupKey cs.sessions sid = some s ∧
      lookupKey (closeSessions cs l).sessions sid =
        some { s with status := SessionStatus.closed, updateAt := t } := by
  induction l generalizing cs with
  | nil => exact Or.inl rfl
  | cons sid' rest ih =>
    rw [closeSessions]
    by_cases heq : sid = sid'
    · subst heq
      rcases hl : lookupKey cs.sessions sid with _ | s
      · have hone : closeOne cs sid = cs := by
          simp [closeOne, hl]
        rw [hone]
        have h4 := ih cs
        rw [hl] at h4
        exact h4
      · have hone := closeOne_lookup_self cs sid s hl
        rcases ih (closeOne cs sid) with h1 | ⟨s2, t2, h2, h3⟩
        · refine Or.inr ⟨s, cs.clock, rfl, ?_⟩
          rw [h1, hone]
        · rw [hone] at h2
          have hs2 : s2 = { s with status := SessionStatus.closed,
                                   updateAt := cs.clock } :=
            (Option.some.inj h2).symm
          subst hs2
          exact Or.inr ⟨s, t2, rfl, h3⟩
    · have hne := closeOne_lookup_ne cs sid' sid heq
      rcases ih (closeOne cs sid') with h1 | ⟨s2, t2, h2, h3⟩
      · rw [h1, hne]
        exact Or.inl rfl
      · rw [hne] at h2
        exact Or.inr ⟨s2, t2, h2, h3⟩

/-- A session id in the closed list whose entry exists is Closed with a
fresh stamp after the loop. -/
theorem closeSessions_mem_closed (cs : CustomerService) (l : List String)
    (sid : String) (s : Session) (hmem : sid ∈ l)
    (hs : lookupKey cs.sessions sid = some s) :
    ∃ t, lookupKey (closeSessions cs l).sessions sid =
      some { s with status := SessionStatus.closed, updateAt := t } := by
  induction l generalizing cs s with
  | nil => cases hmem
  | cons sid' rest ih =>
    rw [closeSessions]
    by_cases heq : sid = sid'
    · subst heq
      have hone := closeOne_lookup_self cs sid s hs
      rcases closeSessions_lookup_or (closeOne cs sid) rest sid with
        h1 | ⟨s2, t2, h2, h3⟩
      · rw [h1, hone]
        exact ⟨cs.clock, rfl⟩
      · rw [hone] at h2
        have hs2 : s2 = { s with status := SessionStatus.closed,
                                 updateAt := cs.clock } :=
          (Option.some.inj h2).symm
        subst hs2
        exact ⟨t2, h3⟩
    · have hmem' : sid ∈ rest := by
        rcases List.mem_cons.mp hmem with h | h
        · exact absurd h heq
        · exact h
      have hne := closeOne_lookup_ne cs sid' sid heq
      exact ih (closeOne cs sid') s hmem' (hne.trans hs)

/-! ### C5: DisconnectStaff effects -/

/-- C5: disconnecting a connected staff member marks the removed record
Offline, removes it from the staff table and from its group's membership
set, transitions every session of its session set that exists in the
session table to Closed with the update time stamped, and leaves the user
table — hence every paired user's `Status` and `SessionID` — untouched. -/
theorem disconnectStaff_effects (cs : CustomerService) (id : String)
    (staff : CSStaff) (h : lookupKey cs.staffs id = some staff) :
    (disconnectStaff cs id).2 =
      some { staff with status := UserStatus.offline } ∧
    lookupKey (disconnectStaff cs id).1.staffs id = none ∧
    (∀ g, lookupKey cs.groups staff.groupID = some g →
       lookupKey (disconnectStaff cs id).1.groups staff.groupID =
         some { g with members := removeKey g.members id }) ∧
    (∀ sid ∈ staff.sessions, ∀ s, lookupKey cs.sessions sid = some s →
       ∃ t, lookupKey (disconnectStaff cs id).1.sessions sid =
         some { s with status := SessionStatus.closed, updateAt := t }) ∧
    (disconnectStaff cs id).1.users = cs.users := by
  rcases hg : lookupKey cs.groups staff.groupID with _ | g0
  · refine ⟨?_, ?_, ?_, ?_, ?_⟩
    · simp [disconnectStaff, h, hg]
    · simp [disconnectStaff, h, hg, closeSessions_staffs, lookupKey_erase_self]
    · intro g hgg
      cases hgg
    · intro sid hmem s hs
      simp only [disconnectStaff, h, hg]
      exact closeSessions_mem_closed cs staff.sessions sid s hmem hs
    · simp [disconnectStaff, h, hg, closeSessions_users]
  · refine ⟨?_, ?_, ?_, ?_, ?_⟩
    · simp [disconnectStaff, h, hg]
    · simp [disconnectStaff, h, hg, closeSessions_staffs, lookupKey_erase_self]
    · intro g hgg
      obtain rfl := Option.some.inj hgg
      simp [disconnectStaff, h, hg, closeSessions_groups, lookupKey_insert_self]
    · intro sid hmem s hs
      simp only [disconnectStaff, h, hg]
      exact closeSessions_mem_closed _ staff.sessions sid s hmem hs
    · simp [disconnectStaff, h, hg, closeSessions_users]

/-- Witness for C5 at the concrete state reached by `baseOps`. -/
theorem disconnectStaff_effects_witness :
    lookupKey baseState.staffs "s1" = some baseStaff ∧
    ((disconnectStaff baseState "s1").2 =
       some { baseStaff with status := UserStatus.offline } ∧
     lookupKey (disconnectStaff baseState "s1").1.staffs "s1" = none ∧
     (∀ g, lookupKey baseState.groups baseStaff.groupID = some g →
        lookupKey (disconnectStaff baseState "s1").1.groups baseStaff.groupID =
          some { g with members := removeKey g.members "s1" }) ∧
     (∀ sid ∈ baseStaff.sessions, ∀ s,
        lookupKey baseState.sessions sid = some s →
        ∃ t, lookupKey (disconnectStaff baseState "s1").1.sessions sid =
          some { s with status := SessionStatus.closed, updateAt := t }) ∧
     (disconnectStaff baseState "s1").1.users = baseState.users) :=
  ⟨by decide, disconnectStaff_effects baseState "s1" baseStaff (by decide)⟩

/-! ### Frame lemmas for Closed sessions (supporting C2) -/

/-- The closing loop keeps a Closed session Closed and preserves its
parties. -/
theorem closeSessions_frame_closed (cs : CustomerService) (l : List String)
    (sid : String) (s : Session)
    (hs : lookupKey cs.sessions sid = some s)
    (hcl : s.status = SessionStatus.closed) :
    ∃ s', lookupKey (closeSessions cs l).sessions sid = some s' ∧
      s'.status = SessionStatus.closed ∧ s'.userID = s.userID ∧
      s'.staffID = s.staffID := by
  rcases closeSessions_lookup_or cs l sid with h1 | ⟨s2, t2, h2, h3⟩
  · exact ⟨s, h1.trans hs, hcl, rfl, rfl⟩
  · have hs2 : s2 = s := Option.some.inj (h2.symm.trans hs)
    subst hs2
    exact ⟨_, h3, rfl, rfl, rfl⟩

/-- `DisconnectStaff` keeps a Closed session Closed and preserves its
parties. -/
theorem disconnectStaff_frame_closed (cs : CustomerService)
    (did sid : String) (s : Session)
    (hs : lookupKey cs.sessions sid = some s)
    (hcl : s.status = SessionStatus.closed) :
    ∃ s', lookupKey (disconnectStaff cs did).1.sessions sid = some s' ∧
      s'.status = SessionStatus.closed ∧ s'.userID = s.userID ∧
      s'.staffID = s.staffID := by
  rcases hd : lookupKey cs.staffs did with _ | staff
  · simp only [disconnectStaff, hd]
    exact ⟨s, hs, hcl, rfl, rfl⟩
  · rcases hg : lookupKey cs.groups staff.groupID with _ | g
    · simp only [disconnectStaff, hd, hg]
      exact closeSessions_frame_closed _ _ sid s hs hcl
    · simp only [disconnectStaff, hd, hg]
      exact closeSessions_frame_closed _ _ sid s hs hcl

/-! ### C2: what survives of "Closed is terminal" -/

/-- C2 (amended): a Closed session's entry always survives, and every
Registry operation preserves its Closed status and its `UserID`; its
`StaffID` is also preserved by every operation except a SUCCESSFUL
`TransferSession` that names this very session (which is possible for a
Closed session when its recorded outgoing staff id has reconnected, and
then rewrites `StaffID`) — in particular a failing `TransferSession`
naming it preserves `StaffID` too.  The guard on `CreateSession` excludes
the generated id colliding with this session's id, in which case the
entry would be replaced outright by the new Active session. -/
theorem closed_session_frame (cs : CustomerService) (op : Op)
    (sid : String) (s : Session)
    (hs : lookupKey cs.sessions sid = some s)
    (hcl : s.status = SessionStatus.closed)
    (hfresh : ∀ u st, op = Op.createSession u st →
       mkSessionId u st cs.clock ≠ sid) :
    ∃ s', lookupKey (step cs op).sessions sid = some s' ∧
      s'.status = SessionStatus.closed ∧ s'.userID = s.userID ∧
      (s'.staffID = s.staffID ∨
       ∃ n, op = Op.transferSession sid n ∧
         (transferSession cs sid n).2 = Except.ok ()) := by
  cases op with
  | connectUser uid n =>
    refine ⟨s, ?_, hcl, rfl, Or.inl rfl⟩
    simpa [step, connectUser, timeNow] using hs
  | createGroup gid n =>
    refine ⟨s, ?_, hcl, rfl, Or.inl rfl⟩
    simpa [step, createGroup] using hs
  | connectStaff stid n gid =>
    refine ⟨s, ?_, hcl, rfl, Or.inl rfl⟩
    rcases hg : lookupKey cs.groups gid with _ | g <;>
      simpa [step, connectStaff, hg] using hs
  | disconnectUser uid =>
    refine ⟨s, ?_, hcl, rfl, Or.inl rfl⟩
    rcases hu : lookupKey cs.users uid with _ | u <;>
      simpa [step, disconnectUser, hu] using hs
  | createSession uid stid =>
    have hne : mkSessionId uid stid cs.clock ≠ sid := hfresh uid stid rfl
    refine ⟨s, ?_, hcl, rfl, Or.inl rfl⟩
    rcases hu : lookupKey cs.users uid with _ | u
    · simpa [step, createSession, hu] using hs
    · rcases hst : lookupKey cs.staffs stid with _ | st
      · simpa [step, createSession, hu, hst] using hs
      · simp only [step, createSession, hu, hst, timeNow]
        rw [lookupKey_insert_ne _ _ _ _ (fun hc => hne hc.symm)]
        exact hs
  | transferSession sid' n =>
    rcases hl : lookupKey cs.sessions sid' with _ | sess
    · refine ⟨s, ?_, hcl, rfl, Or.inl rfl⟩
      simpa [step, transferSession, hl] using hs
    · rcases hn : lookupKey cs.staffs n with _ | ns
      · refine ⟨s, ?_, hcl, rfl, Or.inl rfl⟩
        simpa [step, transferSession, hl, hn] using hs
      · rcases ho : lookupKey cs.staffs sess.staffID with _ | os
        · refine ⟨s, ?_, hcl, rfl, Or.inl rfl⟩
          simpa [step, transferSession, hl, hn, ho] using hs
        · by_cases heq : sid' = sid
          · subst heq
            obtain rfl : sess = s := Option.some.inj (hl.symm.trans hs)
            have hlook : lookupKey
                (step cs (Op.transferSession sid' n)).sessions sid' =
                some { sess with staffID := n, updateAt := cs.clock } := by
              simp only [step, transferSession, hl, hn, ho, timeNow]
              exact lookupKey_insert_self _ _ _
            have hok : (transferSession cs sid' n).2 = Except.ok () := by
              simp [transferSession, hl, hn, ho, timeNow]
            exact ⟨_, hlook, hcl, rfl, Or.inr ⟨n, rfl, hok⟩⟩
          · refine ⟨s, ?_, hcl, rfl, Or.inl rfl⟩
            simp only [step, transferSession, hl, hn, ho, timeNow]
            rw [lookupKey_insert_ne _ _ _ _ (fun hc => heq hc.symm)]
            exact hs
  | sendMessage sid' f c ty =>
    rcases hl : lookupKey cs.sessions sid' with _ | sess
    · refine ⟨s, ?_, hcl, rfl, Or.inl rfl⟩
      simpa [step, sendMessage, hl] using hs
    · have hbranch : ∀ recipient,
        (if f = sess.userID then some sess.staffID
         else if f = sess.staffID then some sess.userID
         else none) = some recipient →
        ∃ s', lookupKey (step cs (Op.sendMessage sid' f c ty)).sessions sid =
            some s' ∧
          s'.status = SessionStatus.closed ∧ s'.userID = s.userID ∧
          (s'.staffID = s.staffID ∨
           ∃ n, Op.sendMessage sid' f c ty = Op.transferSession sid n ∧
             (transferSession cs sid n).2 = Except.ok ()) := by
        intro recipient hrec
        by_cases heq : sid' = sid
        · subst heq
          obtain rfl : sess = s := Option.some.inj (hl.symm.trans hs)
          have hlook : lookupKey
              (step cs (Op.sendMessage sid' f c ty)).sessions sid' =
              some { sess with
                messages := sess.messages ++
                  [{ id := sid' ++ "_" ++ goFormat cs.clock, sessionID := sid',
                     fromID := f, toID := recipient, content := c,
                     type := ty, createAt := cs.clock + 1 }],
                updateAt := cs.clock + 2 } := by
            simp only [step, sendMessage, hl, hrec, timeNow]
            exact lookupKey_insert_self _ _ _
          exact ⟨_, hlook, hcl, rfl, Or.inl rfl⟩
        · refine ⟨s, ?_, hcl, rfl, Or.inl rfl⟩
          simp only [step, sendMessage, hl, hrec, timeNow]
          rw [lookupKey_insert_ne _ _ _ _ (fun hc => heq hc.symm)]
          exact hs
      by_cases hf1 : f = sess.userID
      · exact hbranch sess.staffID (by simp [hf1])
      · by_cases hf2 : f = sess.staffID
        · exact hbranch sess.userID (by simp [hf1, hf2])
        · refine ⟨s, ?_, hcl, rfl, Or.inl rfl⟩
          simpa [step, sendMessage, hl, hf1, hf2, timeNow] using hs
  | disconnectStaff did =>
    obtain ⟨s', h1, h2, h3, h4⟩ := disconnectStaff_frame_closed cs did sid s hs hcl
    exact ⟨s', h1, h2, h3, Or.inl h4⟩

/-- Counterexample to C2 as stated: after `reconnectOps`, session
`"u1_s1_0"` is Closed with `StaffID = "s1"`, yet `TransferSession` to
`"s2"` succeeds and rewrites the Closed session's `StaffID` to `"s2"` —
the claim's "TransferSession applied to a Closed session does not change
its StaffID" fails on the code. -/
theorem closed_session_transfer_counterexample :
    lookupKey reconnectState.sessions "u1_s1_0" =
      some { id := "u1_s1_0", userID := "u1", staffID := "s1",
             status := SessionStatus.closed, createAt := 2, updateAt := 4,
             messages := [] } ∧
    (transferSession reconnectState "u1_s1_0" "s2").2 = Except.ok () ∧
    lookupKey
        (transferSession reconnectState "u1_s1_0" "s2").1.sessions
        "u1_s1_0" =
      some { id := "u1_s1_0", userID := "u1", staffID := "s2",
             status := SessionStatus.closed, createAt := 2, updateAt := 5,
             messages := [] } := by
  decide

/-- Witness for C2 (amended) at a concrete input: a `ConnectUser` step on
`reconnectState` leaves the Closed session's routing fields in place. -/
theorem closed_session_frame_witness :
    lookupKey reconnectState.sessions "u1_s1_0" =
      some { id := "u1_s1_0", userID := "u1", staffID := "s1",
             status := SessionStatus.closed, createAt := 2, updateAt := 4,
             messages := [] } ∧
    (∃ s', lookupKey
        (step reconnectState (Op.connectUser "u2" "D")).sessions "u1_s1_0" =
          some s' ∧
      s'.status = SessionStatus.closed ∧ s'.userID = "u1" ∧
      (s'.staffID = "s1" ∨
       ∃ n, Op.connectUser "u2" "D" = Op.transferSession "u1_s1_0" n ∧
         (transferSession reconnectState "u1_s1_0" n).2 =
           Except.ok ())) :=
  ⟨by decide,
   closed_session_frame reconnectState (Op.connectUser "u2" "D") "u1_s1_0"
     { id := "u1_s1_0", userID := "u1", staffID := "s1",
       status := SessionStatus.closed, createAt := 2, updateAt := 4,
       messages := [] }
     (by decide) (by decide)
     (by intro u st h; exact Op.noConfusion h)⟩

/-! ### C10: CreateSession over a user already InSession -/

/-- Counterexample to C10 as stated: in `closedPriorState` user `"u1"` is
connected and InSession (its prior session `"u1_s1_0"` was Closed by the
staff disconnect cascade), staff `"s2"` is connected, and
`CreateSession("u1","s2")` succeeds — but the prior session remains in the
table with status Closed, not Active, and no staff's session set contains
it. -/
theorem createSession_inSession_counterexample :
    lookupKey closedPriorState.users "u1" =
      some { id := "u1", name := "C", status := UserStatus.inSession,
             createAt := 0, sessionID := "u1_s1_0" } ∧
    (createSession closedPriorState "u1" "s2").2 =
      Except.ok { id := "u1_s2_0", userID := "u1", staffID := "s2",
                  status := SessionStatus.active, createAt := 6,
                  updateAt := 7, messages := [] } ∧
    (lookupKey (createSession closedPriorState "u1" "s2").1.sessions
        "u1_s1_0").map Session.status = some SessionStatus.closed := by
  decide

/-- C10 (amended): for a connected user already InSession and a connected
staff, `CreateSession` succeeds and overwrites the user's `SessionID` with
the new session's id; provided the generated id differs from the prior
session's id, the prior session's table entry is left completely unchanged
(so it keeps whatever status it had — Active only if it was Active) and
its id stays in every staff session set that contained it. -/
theorem createSession_overwrites_user_session (cs : CustomerService)
    (uid stid : String) (u : User) (st : CSStaff)
    (hu : lookupKey cs.users uid = some u)
    (hin : u.status = UserStatus.inSession)
    (hst : lookupKey cs.staffs stid = some st)
    (hfresh : mkSessionId uid stid cs.clock ≠ u.sessionID) :
    (createSession cs uid stid).2 =
      Except.ok { id := mkSessionId uid stid cs.clock, userID := uid,
                  staffID := stid, status := SessionStatus.active,
                  createAt := cs.clock + 1, updateAt := cs.clock + 2,
                  messages := [] } ∧
    lookupKey (createSession cs uid stid).1.users uid =
      some { u with sessionID := mkSessionId uid stid cs.clock,
                    status := UserStatus.inSession } ∧
    lookupKey (createSession cs uid stid).1.sessions u.sessionID =
      lookupKey cs.sessions u.sessionID ∧
    (∀ k st', lookupKey cs.staffs k = some st' →
       u.sessionID ∈ st'.sessions →
       ∃ st'', lookupKey (createSession cs uid stid).1.staffs k = some st'' ∧
         u.sessionID ∈ st''.sessions) := by
  refine ⟨?_, ?_, ?_, ?_⟩
  · simp [createSession, hu, hst, timeNow]
  · simp [createSession, hu, hst, timeNow, lookupKey_insert_self]
  · simp only [createSession, hu, hst, timeNow]
    exact lookupKey_insert_ne _ _ _ _ (fun hc => hfresh hc.symm)
  · intro k st' hk hmem
    by_cases hks : k = stid
    · subst hks
      obtain rfl : st' = st := Option.some.inj (hk.symm.trans hst)
      refine ⟨?_, ?_, ?_⟩
      · exact { st' with sessions := addKey st'.sessions (mkSessionId uid k cs.clock) }
      · simp only [createSession, hu, hst, timeNow]
        exact lookupKey_insert_self _ _ _
      · exact mem_addKey_of_mem _ hmem
    · refine ⟨st', ?_, hmem⟩
      simp only [createSession, hu, hst, timeNow]
      rw [lookupKey_insert_ne _ _ _ _ hks]
      exact hk

/-- Witness for C10 (amended) at `closedPriorState`. -/
theorem createSession_overwrites_user_session_witness :
    lookupKey closedPriorState.users "u1" =
      some { id := "u1", name := "C", status := UserStatus.inSession,
             createAt := 0, sessionID := "u1_s1_0" } ∧
    lookupKey closedPriorState.staffs "s2" =
      some { id := "s2", name := "B", groupID := "g",
             status := UserStatus.online, sessions := [] } ∧
    mkSessionId "u1" "s2" closedPriorState.clock ≠ "u1_s1_0" ∧
    lookupKey (createSession closedPriorState "u1" "s2").1.sessions
        "u1_s1_0" =
      lookupKey closedPriorState.sessions "u1_s1_0" :=
  ⟨by decide, by decide, by decide,
   (createSession_overwrites_user_session closedPriorState "u1" "s2"
     { id := "u1", name := "C", status := UserStatus.inSession,
       createAt := 0, sessionID := "u1_s1_0" }
     { id := "s2", name := "B", groupID := "g",
       status := UserStatus.online, sessions := [] }
     (by decide) (by decide) (by decide) (by decide)).2.2.1⟩

/-! ### C3: session id uniqueness -/

/-- Left cancellation for string concatenation. -/
theorem string_append_left_cancel {a b c : String} (h : a ++ b = a ++ c) :
    b = c := by
  have hd : (a ++ b).data = (a ++ c).data := congrArg String.data h
  rw [String.data_append, String.data_append] at hd
  exact String.ext (List.append_cancel_left hd)

/-- Session ids for the same pair differ exactly when the formatted
timestamps differ. -/
theorem mkSessionId_ne (u st : String) (t1 t2 : Nat)
    (h : goFormat t1 ≠ goFormat t2) :
    mkSessionId u st t1 ≠ mkSessionId u st t2 := by
  intro hc
  exact h (string_append_left_cancel hc)

/-- Counterexample to C3 as stated: from `pairState` (user `"u1"` and
staff `"s1"` both connected), two immediate `CreateSession("u1","s1")`
calls fall in the same formatted second and return sessions with the SAME
id `"u1_s1_0"` — the ids are not distinct, the second entry overwrites
the first, and the session table holds a single entry. -/
theorem createSession_same_second_counterexample :
    (createSession pairState "u1" "s1").2 =
      Except.ok { id := "u1_s1_0", userID := "u1", staffID := "s1",
                  status := SessionStatus.active, createAt := 2,
                  updateAt := 3, messages := [] } ∧
    (createSession (createSession pairState "u1" "s1").1 "u1" "s1").2 =
      Except.ok { id := "u1_s1_0", userID := "u1", staffID := "s1",
                  status := SessionStatus.active, createAt := 5,
                  updateAt := 6, messages := [] } ∧
    (createSession (createSession pairState "u1" "s1").1 "u1"
        "s1").1.sessions.length = 1 := by
  decide

/-- C3 (amended): two `CreateSession` calls for the same connected pair
whose clock readings fall in distinct formatted seconds produce distinct
session ids, both of the shape `userID ++ "_" ++ staffID ++ "_" ++ <sec>`
(hence both containing the literal substring `"u1_s1"` for the pair
`("u1","s1")`), and both ids are recorded in the staff's session set;
ids of a fixed pair are unique across distinct formatted seconds. -/
theorem createSession_distinct_seconds (cs : CustomerService)
    (uid stid : String) (u : User) (st : CSStaff)
    (hu : lookupKey cs.users uid = some u)
    (hst : lookupKey cs.staffs stid = some st)
    (hsec : goFormat cs.clock ≠ goFormat (cs.clock + 3)) :
    (createSession cs uid stid).2 =
      Except.ok { id := mkSessionId uid stid cs.clock, userID := uid,
                  staffID := stid, status := SessionStatus.active,
                  createAt := cs.clock + 1, updateAt := cs.clock + 2,
                  messages := [] } ∧
    (createSession (createSession cs uid stid).1 uid stid).2 =
      Except.ok { id := mkSessionId uid stid (cs.clock + 3), userID := uid,
                  staffID := stid, status := SessionStatus.active,
                  createAt := cs.clock + 4, updateAt := cs.clock + 5,
                  messages := [] } ∧
    mkSessionId uid stid cs.clock ≠ mkSessionId uid stid (cs.clock + 3) ∧
    (∃ r, mkSessionId uid stid cs.clock = (uid ++ "_" ++ stid) ++ r) ∧
    (∃ r, mkSessionId uid stid (cs.clock + 3) = (uid ++ "_" ++ stid) ++ r) ∧
    (∃ st2, lookupKey
        (createSession (createSession cs uid stid).1 uid stid).1.staffs
        stid = some st2 ∧
      mkSessionId uid stid cs.clock ∈ st2.sessions ∧
      mkSessionId uid stid (cs.clock + 3) ∈ st2.sessions) := by
  refine ⟨?_, ?_, mkSessionId_ne uid stid _ _ hsec, ?_, ?_, ?_⟩
  · simp [createSession, hu, hst, timeNow]
  · simp [createSession, hu, hst, timeNow, lookupKey_insert_self]
  · exact ⟨"_" ++ goFormat cs.clock, by simp [mkSessionId, String.append_assoc]⟩
  · exact ⟨"_" ++ goFormat (cs.clock + 3), by simp [mkSessionId, String.append_assoc]⟩
  · refine ⟨?_, ?_, ?_, ?_⟩
    · exact { st with
        sessions :=
          addKey (addKey st.sessions (mkSessionId uid stid cs.clock))
            (mkSessionId uid stid (cs.clock + 3)) }
    · simp only [createSession, hu, hst, timeNow, lookupKey_insert_self]
    · exact mem_addKey_of_mem _ (mem_addKey_self _ _)
    · exact mem_addKey_self _ _

/-- Witness for C3 (amended) at `boundaryState`, whose clock is one tick
before a second boundary. -/
theorem createSession_distinct_seconds_witness :
    lookupKey boundaryState.users "u1" =
      some { id := "u1", name := "B", status := UserStatus.online,
             createAt := 0, sessionID := "" } ∧
    lookupKey boundaryState.staffs "s1" =
      some { id := "s1", name := "A", groupID := "g",
             status := UserStatus.online, sessions := [] } ∧
    goFormat boundaryState.clock ≠ goFormat (boundaryState.clock + 3) ∧
    mkSessionId "u1" "s1" boundaryState.clock ≠
      mkSessionId "u1" "s1" (boundaryState.clock + 3) :=
  ⟨by decide, by decide, by decide,
   (createSession_distinct_seconds boundaryState "u1" "s1"
     { id := "u1", name := "B", status := UserStatus.online,
       createAt := 0, sessionID := "" }
     { id := "s1", name := "A", groupID := "g",
       status := UserStatus.online, sessions := [] }
     (by decide) (by decide) (by decide)).2.2.1⟩

/-! ### Key-distinctness and membership lemmas -/

theorem eraseKey_sublist {α : Type} (m : List (String × α)) (k : String) :
    List.Sublist (eraseKey m k) m := by
  induction m with
  | nil => exact List.Sublist.refl _
  | cons p rest ih =>
    by_cases hp : p.1 = k
    · simp only [eraseKey, if_pos hp]
      exact ih.cons p
    · simp only [eraseKey, if_neg hp]
      exact ih.cons₂ p

theorem not_mem_keys_eraseKey {α : Type} (m : List (String × α)) (k : String) :
    k ∉ (eraseKey m k).map Prod.fst := by
  induction m with
  | nil => simp [eraseKey]
  | cons p rest ih =>
    by_cases hp : p.1 = k
    · simpa only [eraseKey, if_pos hp] using ih
    · simp only [eraseKey, if_neg hp, List.map_cons, List.mem_cons]
      rintro (h | h)
      · exact hp h.symm
      · exact ih h

theorem nodupKeys_eraseKey {α : Type} {m : List (String × α)} (k : String)
    (h : NodupKeys m) : NodupKeys (eraseKey m k) :=
  List.Nodup.sublist (List.Sublist.map Prod.fst (eraseKey_sublist m k)) h

theorem nodupKeys_insertKey {α : Type} {m : List (String × α)} (k : String)
    (v : α) (h : NodupKeys m) : NodupKeys (insertKey m k v) := by
  simp only [NodupKeys, insertKey, List.map_cons, List.nodup_cons]
  exact ⟨not_mem_keys_eraseKey m k, nodupKeys_eraseKey k h⟩

theorem mem_of_lookup_eq_some {α : Type} {m : List (String × α)} {k : String}
    {v : α} (h : lookupKey m k = some v) : (k, v) ∈ m := by
  induction m with
  | nil => cases h
  | cons p rest ih =>
    by_cases hp : p.1 = k
    · obtain ⟨p1, p2⟩ := p
      have hp' : p1 = k := hp
      subst hp'
      simp only [lookupKey, if_pos] at h
      obtain rfl := Option.some.inj h
      exact List.mem_cons_self _ _
    · simp only [lookupKey, if_neg hp] at h
      exact List.mem_cons_of_mem p (ih h)

theorem lookup_eq_some_of_mem {α : Type} {m : List (String × α)} {k : String}
    {v : α} (hn : NodupKeys m) (h : (k, v) ∈ m) : lookupKey m k = some v := by
  induction m with
  | nil => cases h
  | cons p rest ih =>
    simp only [NodupKeys, List.map_cons, List.nodup_cons] at hn
    rcases List.mem_cons.mp h with h1 | h1
    · subst h1
      simp [lookupKey]
    · have hk : k ∈ rest.map Prod.fst :=
        List.mem_map.mpr ⟨(k, v), h1, rfl⟩
      have hp : ¬ p.1 = k := fun hc => hn.1 (hc ▸ hk)
      simp only [lookupKey, if_neg hp]
      exact ih hn.2 h1

theorem lookup_insert_isSome {α : Type} (m : List (String × α))
    (k k' : String) (v : α) (h : (lookupKey m k').isSome) :
    (lookupKey (insertKey m k v) k').isSome := by
  by_cases hk : k' = k
  · subst hk
    simp [lookupKey_insert_self]
  · rw [lookupKey_insert_ne _ _ _ _ hk]
    exact h

/-! ### Preservation of well-formedness by each operation -/

theorem wf_initialService : WF initialService := by
  refine ⟨?_, ?_, ?_, ?_, ?_, ?_, ?_⟩ <;>
    first
      | exact List.nodup_nil
      | intro a b hab
        cases hab
      | intro a b hab
        exact absurd hab (by simp [initialService, lookupKey])

theorem wf_connectUser (cs : CustomerService) (h : WF cs) (uid n : String) :
    WF (connectUser cs uid n).1 := by
  refine ⟨h.nodupStaffs, h.nodupSessions, h.staffIdEq, h.sessionIdEq,
    h.staffSessionsSub, h.inv2, ?_⟩
  intro sid s hs
  exact Nat.lt_succ_of_lt (h.clockBound sid s hs)

theorem wf_createGroup (cs : CustomerService) (h : WF cs) (gid n : String) :
    WF (createGroup cs gid n).1 :=
  ⟨h.nodupStaffs, h.nodupSessions, h.staffIdEq, h.sessionIdEq,
   h.staffSessionsSub, h.inv2, h.clockBound⟩

theorem wf_disconnectUser (cs : CustomerService) (h : WF cs) (uid : String) :
    WF (disconnectUser cs uid) := by
  have hcases : disconnectUser cs uid = cs ∨
      disconnectUser cs uid = { cs with users := eraseKey cs.users uid } := by
    rcases hu : lookupKey cs.users uid with _ | u
    · exact Or.inl (by simp [disconnectUser, hu])
    · exact Or.inr (by simp [disconnectUser, hu])
  rcases hcases with hc | hc <;> rw [hc]
  · exact h
  · exact ⟨h.nodupStaffs, h.nodupSessions, h.staffIdEq, h.sessionIdEq,
      h.staffSessionsSub, h.inv2, h.clockBound⟩

theorem wf_connectStaff (cs : CustomerService) (h : WF cs)
    (stid n gid : String) (hsafe : lookupKey cs.staffs stid = none) :
    WF (connectStaff cs stid n gid).1 := by
  rcases hg : lookupKey cs.groups gid with _ | g
  · simpa [connectStaff, hg] using h
  · have hred : (connectStaff cs stid n gid).1 =
        { cs with
            staffs := insertKey cs.staffs stid
              { id := stid, name := n, groupID := gid,
                status := UserStatus.online, sessions := [] },
            groups := insertKey cs.groups gid
              { g with members := addKey g.members stid } } := by
      simp [connectStaff, hg]
    rw [hred]
    refine ⟨nodupKeys_insertKey _ _ h.nodupStaffs, h.nodupSessions, ?_,
      h.sessionIdEq, ?_, ?_, h.clockBound⟩
    · intro k st hk
      by_cases hks : k = stid
      · subst hks
        rw [lookupKey_insert_self] at hk
        obtain rfl := Option.some.inj hk
        rfl
      · rw [lookupKey_insert_ne _ _ _ _ hks] at hk
        exact h.staffIdEq k st hk
    · intro k st hk sid hmem
      by_cases hks : k = stid
      · subst hks
        rw [lookupKey_insert_self] at hk
        obtain rfl := Option.some.inj hk
        exact absurd hmem (by simp)
      · rw [lookupKey_insert_ne _ _ _ _ hks] at hk
        exact h.staffSessionsSub k st hk sid hmem
    · intro sid s hs hst
      obtain ⟨hsome, hiff⟩ := h.inv2 sid s hs hst
      have hne : s.staffID ≠ stid := by
        intro hc
        rw [hc, hsafe] at hsome
        exact absurd hsome (by simp)
      refine ⟨?_, ?_⟩
      · rw [lookupKey_insert_ne _ _ _ _ hne]
        exact hsome
      · intro k st hk
        by_cases hks : k = stid
        · subst hks
          rw [lookupKey_insert_self] at hk
          obtain rfl := Option.some.inj hk
          constructor
          · intro hmem
            exact absurd hmem (by simp)
          · intro hkk
            exact absurd hkk.symm hne
        · rw [lookupKey_insert_ne _ _ _ _ hks] at hk
          exact hiff k st hk

theorem wf_createSession (cs : CustomerService) (h : WF cs)
    (uid stid : String)
    (hsafe : lookupKey cs.sessions (mkSessionId uid stid cs.clock) = none) :
    WF (createSession cs uid stid).1 := by
  rcases hu : lookupKey cs.users uid with _ | user
  · simpa [createSession, hu] using h
  · rcases hst : lookupKey cs.staffs stid with _ | staff
    · simpa [createSession, hu, hst] using h
    · refine ⟨?_, ?_, ?_, ?_, ?_, ?_, ?_⟩
      · simp only [createSession, hu, hst, timeNow]
        exact nodupKeys_insertKey _ _ h.nodupStaffs
      · simp only [createSession, hu, hst, timeNow]
        exact nodupKeys_insertKey _ _ h.nodupSessions
      · simp only [createSession, hu, hst, timeNow]
        intro k st' hk
        by_cases hks : k = stid
        · subst hks
          rw [lookupKey_insert_self] at hk
          obtain rfl := Option.some.inj hk
          exact h.staffIdEq k staff hst
        · rw [lookupKey_insert_ne _ _ _ _ hks] at hk
          exact h.staffIdEq k st' hk
      · simp only [createSession, hu, hst, timeNow]
        intro k s hk
        by_cases hks : k = mkSessionId uid stid cs.clock
        · subst hks
          rw [lookupKey_insert_self] at hk
          obtain rfl := Option.some.inj hk
          rfl
        · rw [lookupKey_insert_ne _ _ _ _ hks] at hk
          exact h.sessionIdEq k s hk
      · simp only [createSession, hu, hst, timeNow]
        intro k st' hk sid hmem
        by_cases hks : k = stid
        · subst hks
          rw [lookupKey_insert_self] at hk
          obtain rfl := Option.some.inj hk
          rcases mem_addKey.mp hmem with hc | hc
          · subst hc
            simp [lookupKey_insert_self]
          · exact lookup_insert_isSome _ _ _ _
              (h.staffSessionsSub k staff hst sid hc)
        · rw [lookupKey_insert_ne _ _ _ _ hks] at hk
          exact lookup_insert_isSome _ _ _ _
            (h.staffSessionsSub k st' hk sid hmem)
      · simp only [createSession, hu, hst, timeNow]
        intro sid s hs hst'
        by_cases hsid : sid = mkSessionId uid stid cs.clock
        · subst hsid
          rw [lookupKey_insert_self] at hs
          obtain rfl := Option.some.inj hs
          refine ⟨?_, ?_⟩
          · simp [lookupKey_insert_self]
          · intro k st' hk
            by_cases hks : k = stid
            · subst hks
              rw [lookupKey_insert_self] at hk
              obtain rfl := Option.some.inj hk
              simp [mem_addKey_self]
            · rw [lookupKey_insert_ne _ _ _ _ hks] at hk
              constructor
              · intro hmem
                have hsome := h.staffSessionsSub k st' hk _ hmem
                rw [hsafe] at hsome
                exact absurd hsome (by simp)
              · intro hkk
                exact absurd hkk hks
        · rw [lookupKey_insert_ne _ _ _ _ hsid] at hs
          obtain ⟨hsome, hiff⟩ := h.inv2 sid s hs hst'
          refine ⟨lookup_insert_isSome _ _ _ _ hsome, ?_⟩
          intro k st' hk
          by_cases hks : k = stid
          · subst hks
            rw [lookupKey_insert_self] at hk
            obtain rfl := Option.some.inj hk
            constructor
            · intro hmem
              rcases mem_addKey.mp hmem with hc | hc
              · exact absurd hc hsid
              · exact (hiff k staff hst).mp hc
            · intro hkk
              exact mem_addKey_of_mem _ ((hiff k staff hst).mpr hkk)
          · rw [lookupKey_insert_ne _ _ _ _ hks] at hk
            exact hiff k st' hk
      · simp only [createSession, hu, hst, timeNow]
        intro sid s hs
        by_cases hks : sid = mkSessionId uid stid cs.clock
        · subst hks
          rw [lookupKey_insert_self] at hs
          obtain rfl := Option.some.inj hs
          show cs.clock + 1 + 1 < cs.clock + 1 + 1 + 1
          omega
        · rw [lookupKey_insert_ne _ _ _ _ hks] at hs
          have := h.clockBound sid s hs
          omega

theorem wf_sendMessage (cs : CustomerService) (h : WF cs)
    (sid fromId content : String) (ty : MessageType) :
    WF (sendMessage cs sid fromId content ty).1 := by
  rcases hl : lookupKey cs.sessions sid with _ | sess
  · simpa [sendMessage, hl] using h
  · have hgen : ∀ recipient,
        (if fromId = sess.userID then some sess.staffID
         else if fromId = sess.staffID then some sess.userID else none) =
          some recipient →
        WF (sendMessage cs sid fromId content ty).1 := by
      intro recipient hrec
      refine ⟨?_, ?_, ?_, ?_, ?_, ?_, ?_⟩
      · simp only [sendMessage, hl, hrec, timeNow]
        exact h.nodupStaffs
      · simp only [sendMessage, hl, hrec, timeNow]
        exact nodupKeys_insertKey _ _ h.nodupSessions
      · simp only [sendMessage, hl, hrec, timeNow]
        exact h.staffIdEq
      · simp only [sendMessage, hl, hrec, timeNow]
        intro k s hk
        by_cases hks : k = sid
        · subst hks
          rw [lookupKey_insert_self] at hk
          obtain rfl := Option.some.inj hk
          exact h.sessionIdEq _ sess hl
        · rw [lookupKey_insert_ne _ _ _ _ hks] at hk
          exact h.sessionIdEq k s hk
      · simp only [sendMessage, hl, hrec, timeNow]
        intro k st hk sid' hmem
        exact lookup_insert_isSome _ _ _ _
          (h.staffSessionsSub k st hk sid' hmem)
      · simp only [sendMessage, hl, hrec, timeNow]
        intro sid' s hs hst'
        by_cases hks : sid' = sid
        · subst hks
          rw [lookupKey_insert_self] at hs
          obtain rfl := Option.some.inj hs
          obtain ⟨hsome, hiff⟩ := h.inv2 _ sess hl hst'
          exact ⟨hsome, hiff⟩
        · rw [lookupKey_insert_ne _ _ _ _ hks] at hs
          exact h.inv2 sid' s hs hst'
      · simp only [sendMessage, hl, hrec, timeNow]
        intro sid' s hs
        by_cases hks : sid' = sid
        · subst hks
          rw [lookupKey_insert_self] at hs
          obtain rfl := Option.some.inj hs
          show cs.clock + 1 + 1 < cs.clock + 1 + 1 + 1
          omega
        · rw [lookupKey_insert_ne _ _ _ _ hks] at hs
          have := h.clockBound sid' s hs
          omega
    by_cases hf1 : fromId = sess.userID
    · exact hgen sess.staffID (by simp [hf1])
    · by_cases hf2 : fromId = sess.staffID
      · exact hgen sess.userID (by simp [hf1, hf2])
      · have hred : (sendMessage cs sid fromId content ty).1 =
            { cs with clock := cs.clock + 1 + 1 } := by
          simp [sendMessage, hl, hf1, hf2, timeNow]
        rw [hred]
        refine ⟨h.nodupStaffs, h.nodupSessions, h.staffIdEq, h.sessionIdEq,
          h.staffSessionsSub, h.inv2, ?_⟩
        intro sid' s hs
        have := h.clockBound sid' s hs
        show s.updateAt < cs.clock + 1 + 1
        omega

theorem wf_transferSession (cs : CustomerService) (h : WF cs)
    (sid nid : String) : WF (transferSession cs sid nid).1 := by
  rcases hl : lookupKey cs.sessions sid with _ | sess
  · simpa [transferSession, hl] using h
  · rcases hn : lookupKey cs.staffs nid with _ | ns
    · simpa [transferSession, hl, hn] using h
    · rcases ho : lookupKey cs.staffs sess.staffID with _ | os
      · simpa [transferSession, hl, hn, ho] using h
      · by_cases hno : nid = sess.staffID
        · -- self-transfer: outgoing and destination staff coincide
          subst hno
          obtain rfl : ns = os := Option.some.inj (hn.symm.trans ho)
          have hins : lookupKey (insertKey cs.staffs sess.staffID { ns with sessions := removeKey ns.sessions sid }) sess.staffID = some { ns with sessions := removeKey ns.sessions sid } :=
            lookupKey_insert_self _ _ _
          refine ⟨?_, ?_, ?_, ?_, ?_, ?_, ?_⟩
          · simp only [transferSession, hl, hn, timeNow, updateStaffSessions,
              hins]
            exact nodupKeys_insertKey _ _ (nodupKeys_insertKey _ _ h.nodupStaffs)
          · simp only [transferSession, hl, hn, timeNow, updateStaffSessions,
              hins]
            exact nodupKeys_insertKey _ _ h.nodupSessions
          · simp only [transferSession, hl, hn, timeNow, updateStaffSessions,
              hins]
            intro k st hk
            by_cases hk1 : k = sess.staffID
            · subst hk1
              rw [lookupKey_insert_self] at hk
              obtain rfl := Option.some.inj hk
              exact h.staffIdEq _ ns hn
            · rw [lookupKey_insert_ne _ _ _ _ hk1,
                lookupKey_insert_ne _ _ _ _ hk1] at hk
              exact h.staffIdEq k st hk
          · simp only [transferSession, hl, hn, timeNow, updateStaffSessions,
              hins]
            intro k s hk
            by_cases hk1 : k = sid
            · subst hk1
              rw [lookupKey_insert_self] at hk
              obtain rfl := Option.some.inj hk
              exact h.sessionIdEq _ sess hl
            · rw [lookupKey_insert_ne _ _ _ _ hk1] at hk
              exact h.sessionIdEq k s hk
          · simp only [transferSession, hl, hn, timeNow, updateStaffSessions,
              hins]
            intro k st hk sid' hmem
            by_cases hk1 : k = sess.staffID
            · subst hk1
              rw [lookupKey_insert_self] at hk
              obtain rfl := Option.some.inj hk
              rcases mem_addKey.mp hmem with hc | hc
              · subst hc
                simp [lookupKey_insert_self]
              · exact lookup_insert_isSome _ _ _ _
                  (h.staffSessionsSub _ ns hn sid' (mem_removeKey.mp hc).1)
            · rw [lookupKey_insert_ne _ _ _ _ hk1,
                lookupKey_insert_ne _ _ _ _ hk1] at hk
              exact lookup_insert_isSome _ _ _ _
                (h.staffSessionsSub k st hk sid' hmem)
          · simp only [transferSession, hl, hn, timeNow, updateStaffSessions,
              hins]
            intro sid' s hs hst'
            by_cases hsid : sid' = sid
            · subst hsid
              rw [lookupKey_insert_self] at hs
              obtain rfl := Option.some.inj hs
              obtain ⟨hsome, hiff⟩ := h.inv2 _ sess hl hst'
              refine ⟨by simp [lookupKey_insert_self], ?_⟩
              intro k st hk
              by_cases hk1 : k = sess.staffID
              · subst hk1
                rw [lookupKey_insert_self] at hk
                obtain rfl := Option.some.inj hk
                exact iff_of_true (mem_addKey_self _ _) rfl
              · rw [lookupKey_insert_ne _ _ _ _ hk1,
                  lookupKey_insert_ne _ _ _ _ hk1] at hk
                refine iff_of_false ?_ hk1
                intro hmem
                exact hk1 ((hiff k st hk).mp hmem)
            · rw [lookupKey_insert_ne _ _ _ _ hsid] at hs
              obtain ⟨hsome, hiff⟩ := h.inv2 sid' s hs hst'
              refine ⟨lookup_insert_isSome _ _ _ _
                (lookup_insert_isSome _ _ _ _ hsome), ?_⟩
              intro k st hk
              by_cases hk1 : k = sess.staffID
              · subst hk1
                rw [lookupKey_insert_self] at hk
                obtain rfl := Option.some.inj hk
                constructor
                · intro hmem
                  rcases mem_addKey.mp hmem with hc | hc
                  · exact absurd hc hsid
                  · exact (hiff _ ns hn).mp (mem_removeKey.mp hc).1
                · intro hkk
                  exact mem_addKey_of_mem _
                    (mem_removeKey.mpr ⟨(hiff _ ns hn).mpr hkk, hsid⟩)
              · rw [lookupKey_insert_ne _ _ _ _ hk1,
                  lookupKey_insert_ne _ _ _ _ hk1] at hk
                exact hiff k st hk
          · simp only [transferSession, hl, hn, timeNow, updateStaffSessions,
              hins]
            intro sid' s hs
            by_cases hsid : sid' = sid
            · subst hsid
              rw [lookupKey_insert_self] at hs
              obtain rfl := Option.some.inj hs
              show cs.clock < cs.clock + 1
              omega
            · rw [lookupKey_insert_ne _ _ _ _ hsid] at hs
              have := h.clockBound sid' s hs
              show s.updateAt < cs.clock + 1
              omega
        · -- transfer to a different staff
          have hins : lookupKey (insertKey cs.staffs sess.staffID { os with sessions := removeKey os.sessions sid }) nid = some ns := by
            rw [lookupKey_insert_ne _ _ _ _ hno]
            exact hn
          refine ⟨?_, ?_, ?_, ?_, ?_, ?_, ?_⟩
          · simp only [transferSession, hl, hn, ho, timeNow,
              updateStaffSessions, hins]
            exact nodupKeys_insertKey _ _ (nodupKeys_insertKey _ _ h.nodupStaffs)
          · simp only [transferSession, hl, hn, ho, timeNow,
              updateStaffSessions, hins]
            exact nodupKeys_insertKey _ _ h.nodupSessions
          · simp only [transferSession, hl, hn, ho, timeNow,
              updateStaffSessions, hins]
            intro k st hk
            by_cases hk1 : k = nid
            · subst hk1
              rw [lookupKey_insert_self] at hk
              obtain rfl := Option.some.inj hk
              exact h.staffIdEq _ ns hn
            · rw [lookupKey_insert_ne _ _ _ _ hk1] at hk
              by_cases hk2 : k = sess.staffID
              · subst hk2
                rw [lookupKey_insert_self] at hk
                obtain rfl := Option.some.inj hk
                exact h.staffIdEq _ os ho
              · rw [lookupKey_insert_ne _ _ _ _ hk2] at hk
                exact h.staffIdEq k st hk
          · simp only [transferSession, hl, hn, ho, timeNow,
              updateStaffSessions, hins]
            intro k s hk
            by_cases hk1 : k = sid
            · subst hk1
              rw [lookupKey_insert_self] at hk
              obtain rfl := Option.some.inj hk
              exact h.sessionIdEq _ sess hl
            · rw [lookupKey_insert_ne _ _ _ _ hk1] at hk
              exact h.sessionIdEq k s hk
          · simp only [transferSession, hl, hn, ho, timeNow,
              updateStaffSessions, hins]
            intro k st hk sid' hmem
            by_cases hk1 : k = nid
            · subst hk1
              rw [lookupKey_insert_self] at hk
              obtain rfl := Option.some.inj hk
              rcases mem_addKey.mp hmem with hc | hc
              · subst hc
                simp [lookupKey_insert_self]
              · exact lookup_insert_isSome _ _ _ _
                  (h.staffSessionsSub _ ns hn sid' hc)
            · rw [lookupKey_insert_ne _ _ _ _ hk1] at hk
              by_cases hk2 : k = sess.staffID
              · subst hk2
                rw [lookupKey_insert_self] at hk
                obtain rfl := Option.some.inj hk
                exact lookup_insert_isSome _ _ _ _
                  (h.staffSessionsSub _ os ho sid' (mem_removeKey.mp hmem).1)
              · rw [lookupKey_insert_ne _ _ _ _ hk2] at hk
                exact lookup_insert_isSome _ _ _ _
                  (h.staffSessionsSub k st hk sid' hmem)
          · simp only [transferSession, hl, hn, ho, timeNow,
              updateStaffSessions, hins]
            intro sid' s hs hst'
            by_cases hsid : sid' = sid
            · subst hsid
              rw [lookupKey_insert_self] at hs
              obtain rfl := Option.some.inj hs
              obtain ⟨hsome, hiff⟩ := h.inv2 _ sess hl hst'
              refine ⟨by simp [lookupKey_insert_self], ?_⟩
              intro k st hk
              by_cases hk1 : k = nid
              · subst hk1
                rw [lookupKey_insert_self] at hk
                obtain rfl := Option.some.inj hk
                exact iff_of_true (mem_addKey_self _ _) rfl
              · rw [lookupKey_insert_ne _ _ _ _ hk1] at hk
                by_cases hk2 : k = sess.staffID
                · subst hk2
                  rw [lookupKey_insert_self] at hk
                  obtain rfl := Option.some.inj hk
                  exact iff_of_false (not_mem_removeKey_self _ _) hk1
                · rw [lookupKey_insert_ne _ _ _ _ hk2] at hk
                  refine iff_of_false ?_ hk1
                  intro hmem
                  exact hk2 ((hiff k st hk).mp hmem)
            · rw [lookupKey_insert_ne _ _ _ _ hsid] at hs
              obtain ⟨hsome, hiff⟩ := h.inv2 sid' s hs hst'
              refine ⟨lookup_insert_isSome _ _ _ _
                (lookup_insert_isSome _ _ _ _ hsome), ?_⟩
              intro k st hk
              by_cases hk1 : k = nid
              · subst hk1
                rw [lookupKey_insert_self] at hk
                obtain rfl := Option.some.inj hk
                constructor
                · intro hmem
                  rcases mem_addKey.mp hmem with hc | hc
                  · exact absurd hc hsid
                  · exact (hiff _ ns hn).mp hc
                · intro hkk
                  exact mem_addKey_of_mem _ ((hiff _ ns hn).mpr hkk)
              · rw [lookupKey_insert_ne _ _ _ _ hk1] at hk
                by_cases hk2 : k = sess.staffID
                · subst hk2
                  rw [lookupKey_insert_self] at hk
                  obtain rfl := Option.some.inj hk
                  constructor
                  · intro hmem
                    exact (hiff _ os ho).mp (mem_removeKey.mp hmem).1
                  · intro hkk
                    exact mem_removeKey.mpr ⟨(hiff _ os ho).mpr hkk, hsid⟩
                · rw [lookupKey_insert_ne _ _ _ _ hk2] at hk
                  exact hiff k st hk
          · simp only [transferSession, hl, hn, ho, timeNow,
              updateStaffSessions, hins]
            intro sid' s hs
            by_cases hsid : sid' = sid
            · subst hsid
              rw [lookupKey_insert_self] at hs
              obtain rfl := Option.some.inj hs
              show cs.clock < cs.clock + 1
              omega
            · rw [lookupKey_insert_ne _ _ _ _ hsid] at hs
              have := h.clockBound sid' s hs
              show s.updateAt < cs.clock + 1
              omega

theorem closeOne_nodup (cs : CustomerService) (sid : String)
    (h : NodupKeys cs.sessions) : NodupKeys (closeOne cs sid).sessions := by
  rcases hl : lookupKey cs.sessions sid with _ | s
  · simpa [closeOne, hl] using h
  · simp only [closeOne, hl, timeNow]
    exact nodupKeys_insertKey _ _ h

theorem closeSessions_nodup (cs : CustomerService) (l : List String)
    (h : NodupKeys cs.sessions) : NodupKeys (closeSessions cs l).sessions := by
  induction l generalizing cs with
  | nil => exact h
  | cons sid rest ih =>
    rw [closeSessions]
    exact ih _ (closeOne_nodup _ _ h)

theorem closeSessions_isSome (cs : CustomerService) (l : List String)
    (sid : String) (h : (lookupKey cs.sessions sid).isSome) :
    (lookupKey (closeSessions cs l).sessions sid).isSome := by
  rcases closeSessions_lookup_or cs l sid with h1 | ⟨s, t, h2, h3⟩
  · rw [h1]
    exact h
  · rw [h3]
    simp

theorem closeOne_bound (cs : CustomerService) (sid : String)
    (h : ∀ k s, lookupKey cs.sessions k = some s → s.updateAt < cs.clock) :
    ∀ k s, lookupKey (closeOne cs sid).sessions k = some s →
      s.updateAt < (closeOne cs sid).clock := by
  rcases hl : lookupKey cs.sessions sid with _ | s0
  · simp only [closeOne, hl]
    exact h
  · simp only [closeOne, hl, timeNow]
    intro k s hk
    by_cases hks : k = sid
    · subst hks
      rw [lookupKey_insert_self] at hk
      obtain rfl := Option.some.inj hk
      show cs.clock < cs.clock + 1
      omega
    · rw [lookupKey_insert_ne _ _ _ _ hks] at hk
      have := h k s hk
      show s.updateAt < cs.clock + 1
      omega

theorem closeSessions_bound (cs : CustomerService) (l : List String)
    (h : ∀ k s, lookupKey cs.sessions k = some s → s.updateAt < cs.clock) :
    ∀ k s, lookupKey (closeSessions cs l).sessions k = some s →
      s.updateAt < (closeSessions cs l).clock := by
  induction l generalizing cs with
  | nil => exact h
  | cons sid rest ih =>
    rw [closeSessions]
    exact ih _ (closeOne_bound _ _ h)

/-- Core of `DisconnectStaff` preservation: closing the staff's sessions in
a state `cs1` that agrees with `cs` on staffs, sessions and clock, then
erasing the staff, keeps the registry well-formed. -/
theorem wf_disconnect_core (cs cs1 : CustomerService) (h : WF cs)
    (hu2 : cs1.staffs = cs.staffs) (hs2 : cs1.sessions = cs.sessions)
    (hc2 : cs1.clock = cs.clock) (did : String) (staff : CSStaff)
    (hd : lookupKey cs.staffs did = some staff) :
    WF { closeSessions cs1 staff.sessions with
           staffs := eraseKey (closeSessions cs1 staff.sessions).staffs did } := by
  have hF : (closeSessions cs1 staff.sessions).staffs = cs.staffs := by
    rw [closeSessions_staffs, hu2]
  refine ⟨?_, ?_, ?_, ?_, ?_, ?_, ?_⟩
  · show NodupKeys (eraseKey (closeSessions cs1 staff.sessions).staffs did)
    rw [hF]
    exact nodupKeys_eraseKey _ h.nodupStaffs
  · show NodupKeys (closeSessions cs1 staff.sessions).sessions
    refine closeSessions_nodup _ _ ?_
    rw [hs2]
    exact h.nodupSessions
  · intro k st hk
    by_cases hkd : k = did
    · subst hkd
      rw [lookupKey_erase_self] at hk
      cases hk
    · rw [lookupKey_erase_ne _ _ _ hkd, hF] at hk
      exact h.staffIdEq k st hk
  · intro k s hk
    rcases closeSessions_lookup_or cs1 staff.sessions k with h1 | ⟨s0, t, h2, h3⟩
    · rw [h1, hs2] at hk
      exact h.sessionIdEq k s hk
    · rw [h3] at hk
      obtain rfl := Option.some.inj hk
      rw [hs2] at h2
      exact h.sessionIdEq k s0 h2
  · intro k st hk sid hmem
    by_cases hkd : k = did
    · subst hkd
      rw [lookupKey_erase_self] at hk
      cases hk
    · rw [lookupKey_erase_ne _ _ _ hkd, hF] at hk
      refine closeSessions_isSome _ _ _ ?_
      rw [hs2]
      exact h.staffSessionsSub k st hk sid hmem
  · intro sid s hs hst'
    rcases closeSessions_lookup_or cs1 staff.sessions sid with h1 | ⟨s0, t, h2, h3⟩
    · rw [h1, hs2] at hs
      obtain ⟨hsome, hiff⟩ := h.inv2 sid s hs hst'
      have hne : s.staffID ≠ did := by
        intro hc
        have hmem : sid ∈ staff.sessions := (hiff did staff hd).mpr hc.symm
        have hs1 : lookupKey cs1.sessions sid = some s := by
          rw [hs2]
          exact hs
        obtain ⟨t, hclosed⟩ :=
          closeSessions_mem_closed cs1 staff.sessions sid s hmem hs1
        rw [h1] at hclosed
        rw [hs1] at hclosed
        obtain hse := Option.some.inj hclosed
        exact hst' (by rw [hse])
      refine ⟨?_, ?_⟩
      · show (lookupKey (eraseKey (closeSessions cs1 staff.sessions).staffs did)
            s.staffID).isSome
        rw [lookupKey_erase_ne _ _ _ hne, hF]
        exact hsome
      · intro k st hk
        by_cases hkd : k = did
        · subst hkd
          rw [lookupKey_erase_self] at hk
          cases hk
        · rw [lookupKey_erase_ne _ _ _ hkd, hF] at hk
          exact hiff k st hk
    · rw [h3] at hs
      obtain rfl := Option.some.inj hs
      exact absurd rfl hst'
  · refine closeSessions_bound _ _ ?_
    intro k s hk
    rw [hs2] at hk
    rw [hc2]
    exact h.clockBound k s hk

theorem wf_disconnectStaff (cs : CustomerService) (h : WF cs)
    (did : String) : WF (disconnectStaff cs did).1 := by
  rcases hd : lookupKey cs.staffs did with _ | staff
  · simpa [disconnectStaff, hd] using h
  · rcases hg : lookupKey cs.groups staff.groupID with _ | g
    · have hred : (disconnectStaff cs did).1 =
          { closeSessions cs staff.sessions with
              staffs := eraseKey (closeSessions cs staff.sessions).staffs did } := by
        simp [disconnectStaff, hd, hg]
      rw [hred]
      exact wf_disconnect_core cs cs h rfl rfl rfl did staff hd
    · have hred : (disconnectStaff cs did).1 =
          { closeSessions { cs with groups := insertKey cs.groups staff.groupID { g with members := removeKey g.members did } } staff.sessions with
              staffs := eraseKey (closeSessions { cs with groups := insertKey cs.groups staff.groupID { g with members := removeKey g.members did } } staff.sessions).staffs did } := by
        simp [disconnectStaff, hd, hg]
      rw [hred]
      exact wf_disconnect_core cs { cs with groups := insertKey cs.groups staff.groupID { g with members := removeKey g.members did } } h rfl rfl rfl did staff hd

theorem wf_step (cs : CustomerService) (op : Op) (h : WF cs)
    (hsafe : safeStep cs op = true) : WF (step cs op) := by
  cases op with
  | connectUser uid n => exact wf_connectUser cs h uid n
  | connectStaff stid n gid =>
    have hnone : lookupKey cs.staffs stid = none := by
      simpa [safeStep, Option.isNone_iff_eq_none] using hsafe
    exact wf_connectStaff cs h stid n gid hnone
  | createGroup gid n => exact wf_createGroup cs h gid n
  | createSession uid stid =>
    have hnone : lookupKey cs.sessions (mkSessionId uid stid cs.clock) =
        none := by
      simpa [safeStep, Option.isNone_iff_eq_none] using hsafe
    exact wf_createSession cs h uid stid hnone
  | transferSession sid nid => exact wf_transferSession cs h sid nid
  | sendMessage sid f c ty => exact wf_sendMessage cs h sid f c ty
  | disconnectUser uid => exact wf_disconnectUser cs h uid
  | disconnectStaff did => exact wf_disconnectStaff cs h did

theorem wf_run (ops : List Op) (cs : CustomerService) (h : WF cs)
    (hsafe : safeTrace cs ops = true) : WF (run cs ops) := by
  induction ops generalizing cs with
  | nil => exact h
  | cons op rest ih =>
    rw [safeTrace, Bool.and_eq_true] at hsafe
    exact ih (step cs op) (wf_step cs op h hsafe.1) hsafe.2

/-! ### C1: each live session is held by exactly one staff -/

/-- C1 (amended): along every operation sequence from the fresh service in
which `ConnectStaff` never reuses a currently connected staff id and
`CreateSession` never generates an id already present in the session table
(no same-second collision), every session whose status is Active or
Waiting has its id in exactly one staff member's session set, and that
staff member's id equals the session's `StaffID`. -/
theorem activeSession_unique_staff (ops : List Op)
    (hsafe : safeTrace initialService ops = true) :
    ∀ sid s, lookupKey (run initialService ops).sessions sid = some s →
      (s.status = SessionStatus.active ∨ s.status = SessionStatus.waiting) →
      (∃! p : String × CSStaff, p ∈ (run initialService ops).staffs ∧
         s.id ∈ p.2.sessions) ∧
      (∀ p : String × CSStaff, p ∈ (run initialService ops).staffs →
         s.id ∈ p.2.sessions → p.2.id = s.staffID) := by
  have hwf := wf_run ops initialService wf_initialService hsafe
  intro sid s hs hstat
  have hncl : s.status ≠ SessionStatus.closed := by
    rcases hstat with h1 | h1 <;> simp [h1]
  obtain ⟨hsome, hiff⟩ := hwf.inv2 sid s hs hncl
  have hid : s.id = sid := hwf.sessionIdEq sid s hs
  obtain ⟨st, hst⟩ := Option.isSome_iff_exists.mp hsome
  constructor
  · refine ⟨(s.staffID, st), ⟨mem_of_lookup_eq_some hst, ?_⟩, ?_⟩
    · rw [hid]
      exact (hiff s.staffID st hst).mpr rfl
    · rintro ⟨k, st'⟩ ⟨hmem, hmem2⟩
      have hk : lookupKey (run initialService ops).staffs k = some st' :=
        lookup_eq_some_of_mem hwf.nodupStaffs hmem
      have hkeq : k = s.staffID := (hiff k st' hk).mp (hid ▸ hmem2)
      subst hkeq
      obtain rfl : st' = st := Option.some.inj (hk.symm.trans hst)
      rfl
  · intro p hmem hmem2
    have hk : lookupKey (run initialService ops).staffs p.1 = some p.2 :=
      lookup_eq_some_of_mem hwf.nodupStaffs hmem
    have hkeq : p.1 = s.staffID := (hiff p.1 p.2 hk).mp (hid ▸ hmem2)
    rw [hwf.staffIdEq p.1 p.2 hk, hkeq]

/-- Counterexample to C1 as stated: after `orphanOps` (which ends with a
reconnect of staff id `"s1"`), session `"u1_s1_0"` is Active yet NO
staff member's session set contains its id — the reconnect replaced the
staff entry by one with an empty session set. -/
theorem activeSession_unique_staff_counterexample :
    lookupKey orphanState.sessions "u1_s1_0" =
      some { id := "u1_s1_0", userID := "u1", staffID := "s1",
             status := SessionStatus.active, createAt := 2, updateAt := 3,
             messages := [] } ∧
    ∀ p ∈ orphanState.staffs, "u1_s1_0" ∉ p.2.sessions := by
  decide

/-- Witness for C1 (amended) on the concrete safe trace `baseOps`. -/
theorem activeSession_unique_staff_witness :
    safeTrace initialService baseOps = true ∧
    ((∃! p : String × CSStaff, p ∈ (run initialService baseOps).staffs ∧
        baseSession.id ∈ p.2.sessions) ∧
     (∀ p : String × CSStaff, p ∈ (run initialService baseOps).staffs →
        baseSession.id ∈ p.2.sessions → p.2.id = baseSession.staffID)) :=
  ⟨by decide,
   activeSession_unique_staff baseOps (by decide) "u1_s1_0" baseSession
     (by decide) (Or.inl (by decide))⟩

/-! ### C7: what a successful transfer moves -/

/-- Counterexample to C7 as stated: transferring session `"u1_s1_0"` to
its own current staff `"s1"` succeeds, yet the set of staff holding the
session id is `["s1"]` both before and after — the id is not moved out of
one staff's session set into an OTHER staff's set. -/
theorem transferSession_self_counterexample :
    (transferSession baseState "u1_s1_0" "s1").2 = Except.ok () ∧
    holders baseState "u1_s1_0" = ["s1"] ∧
    holders (transferSession baseState "u1_s1_0" "s1").1 "u1_s1_0" =
      ["s1"] := by
  decide

/-- C7 (amended): in a well-formed state, a successful `TransferSession`
of an Active session to a staff different from its current one moves the
session id from exactly the old staff's session set (the unique holder
before) to exactly the new staff's set (the unique holder after), sets the
session's `StaffID` to the new staff id, and strictly increases
`UpdateAt`. -/
theorem transferSession_moves_between_staffs (cs : CustomerService)
    (hwf : WF cs) (sid nid : String) (s : Session)
    (hs : lookupKey cs.sessions sid = some s)
    (hact : s.status = SessionStatus.active)
    (hnew : (lookupKey cs.staffs nid).isSome)
    (hne : nid ≠ s.staffID) :
    (transferSession cs sid nid).2 = Except.ok () ∧
    (∀ k st, lookupKey cs.staffs k = some st →
       (sid ∈ st.sessions ↔ k = s.staffID)) ∧
    (∀ k st, lookupKey (transferSession cs sid nid).1.staffs k = some st →
       (sid ∈ st.sessions ↔ k = nid)) ∧
    (∃ s', lookupKey (transferSession cs sid nid).1.sessions sid = some s' ∧
       s'.staffID = nid ∧ s.updateAt < s'.updateAt) := by
  have hncl : s.status ≠ SessionStatus.closed := by
    simp [hact]
  obtain ⟨hsome, hiff⟩ := hwf.inv2 sid s hs hncl
  obtain ⟨os, ho⟩ := Option.isSome_iff_exists.mp hsome
  obtain ⟨ns, hn⟩ := Option.isSome_iff_exists.mp hnew
  have hok : (transferSession cs sid nid).2 = Except.ok () := by
    simp [transferSession, hs, hn, ho, timeNow]
  have hlook : lookupKey (transferSession cs sid nid).1.sessions sid =
      some { s with staffID := nid, updateAt := cs.clock } := by
    simp only [transferSession, hs, hn, ho, timeNow]
    exact lookupKey_insert_self _ _ _
  have hwf' : WF (transferSession cs sid nid).1 :=
    wf_transferSession cs hwf sid nid
  have hncl' : Session.status
      { s with staffID := nid, updateAt := cs.clock } ≠
      SessionStatus.closed := by
    simp [hact]
  obtain ⟨hsome', hiff'⟩ := hwf'.inv2 sid _ hlook hncl'
  refine ⟨hok, hiff, ?_, ?_⟩
  · intro k st hk
    simpa using hiff' k st hk
  · refine ⟨_, hlook, rfl, ?_⟩
    exact hwf.clockBound sid s hs

/-- Witness for C7 (amended) on the concrete trace `twoStaffOps`. -/
theorem transferSession_moves_between_staffs_witness :
    safeTrace initialService twoStaffOps = true ∧
    lookupKey twoStaffState.sessions "u1_s1_0" = some baseSession ∧
    baseSession.status = SessionStatus.active ∧
    (lookupKey twoStaffState.staffs "s2").isSome ∧
    ("s2" : String) ≠ baseSession.staffID ∧
    ((transferSession twoStaffState "u1_s1_0" "s2").2 = Except.ok () ∧
     (∀ k st, lookupKey twoStaffState.staffs k = some st →
        ("u1_s1_0" ∈ st.sessions ↔ k = baseSession.staffID)) ∧
     (∀ k st,
        lookupKey (transferSession twoStaffState "u1_s1_0" "s2").1.staffs k =
          some st → ("u1_s1_0" ∈ st.sessions ↔ k = "s2")) ∧
     (∃ s', lookupKey
          (transferSession twoStaffState "u1_s1_0" "s2").1.sessions
          "u1_s1_0" = some s' ∧
        s'.staffID = "s2" ∧ baseSession.updateAt < s'.updateAt)) :=
  ⟨by decide, by decide, by decide, by decide, by decide,
   transferSession_moves_between_staffs twoStaffState
     (wf_run twoStaffOps initialService wf_initialService (by decide))
     "u1_s1_0" "s2" baseSession (by decide) (by decide) (by decide)
     (by decide)⟩
